import Mathlib

/-!
Verification of glgen (src/glgen.cpp), a command-line utility that scans C/C++
source files for OpenGL identifiers, cross-references them against OpenGL
registry headers, and emits a generated header with typedefs and optional
loading boilerplate.

This file is a shallow embedding of the core of `glgen.cpp`:
text buffers are `List Char` (one `Char` per byte; all inputs are ASCII text),
the fixed-capacity open-addressing tables are functions `Fin 8192 → entry`,
the emitted output file is the concatenation (`List.flatten`) of the sequence
of chunks the program writes with `fprintf`/`fwrite`.  Each definition mirrors
the C function of the same name.
-/

set_option maxHeartbeats 1000000
set_option maxRecDepth 4000

namespace Glgen

/-! ### Character classes (`IsWhitespace`, `IsNewline`, `IsIdentifier`, `IsUpperCase`) -/

/-- `IsWhitespace` from glgen.cpp: space, tab, vertical tab, form feed. -/
def IsWhitespace (c : Char) : Bool :=
  c == ' ' || c == '\t' || c == '\x0b' || c == '\x0c'

/-- `IsNewline` from glgen.cpp: carriage return or line feed. -/
def IsNewline (c : Char) : Bool :=
  c == '\r' || c == '\n'

/-- `IsWhitespaceOrNewline` from glgen.cpp. -/
def IsWhitespaceOrNewline (c : Char) : Bool :=
  IsNewline c || IsWhitespace c

/-- `IsIdentifier` from glgen.cpp: ASCII letters, digits, underscore, hash, star. -/
def IsIdentifier (c : Char) : Bool :=
  ('a' ≤ c && c ≤ 'z') || ('A' ≤ c && c ≤ 'Z') || ('0' ≤ c && c ≤ '9') ||
  c == '_' || c == '#' || c == '*'

/-- `IsUpperCase` from glgen.cpp. -/
def IsUpperCase (c : Char) : Bool :=
  'A' ≤ c && c ≤ 'Z'

/-! ### The string hash (`GetStringHash`) -/

/-- One byte of a `GLString`, as the C code reads it: the character is accessed
through an `unsigned char*`, so its value is the byte value 0..255. -/
def byteOf (c : Char) : Nat := c.toNat % 256

/-- The loop body of `GetStringHash`: `Result *= 0x01000193U; Result ^= byte;`.
The multiplication is 32-bit unsigned arithmetic, hence the `% 2^32`. -/
def hashStep (acc : Nat) (c : Char) : Nat :=
  Nat.xor (acc * 0x01000193 % 4294967296) (byteOf c)

/-- The `for` loop of `GetStringHash`, with the accumulator made explicit. -/
def GetStringHashLoop (acc : Nat) : List Char → Nat
  | [] => acc
  | c :: rest => GetStringHashLoop (hashStep acc c) rest

/-- `GetStringHash` from glgen.cpp: the rolling hash of a string, seeded at 1. -/
def GetStringHash (s : List Char) : Nat :=
  GetStringHashLoop 1 s

/-! ### Tokens and token parsing -/

/-- `GLToken` from glgen.cpp: a scanned identifier (its text) and its hash.
A value with hash 0 marks an empty hash-table slot. -/
structure GLToken where
  value : List Char
  hash : Nat
  deriving DecidableEq

/-- `GLArbToken` from glgen.cpp: a registry declaration.  `lineAfter` models the
single byte that follows the captured line in the registry buffer; the emitter
writes `Line.Length + 1` bytes, so that byte is part of the emitted chunk. -/
structure GLArbToken where
  value : List Char
  line : List Char
  lineAfter : Char
  returnType : List Char
  functionName : List Char
  parameters : List Char
  hash : Nat
  deriving DecidableEq

/-- The all-zero `GLToken` (what `calloc` leaves in an empty table slot). -/
def emptyGLToken : GLToken := { value := [], hash := 0 }

/-- The all-zero `GLArbToken` (empty table slot / zero-initialized token). -/
def emptyGLArbToken : GLArbToken :=
  { value := [], line := [], lineAfter := '\x00', returnType := [],
    functionName := [], parameters := [], hash := 0 }

/-- The skip loop shared by both tokenizers:
`while(*At && (IsWhitespaceOrNewline(*At) || !IsIdentifier(*At))) At++;`. -/
def skipToIdentifier (buf : List Char) : List Char :=
  buf.dropWhile (fun c => IsWhitespaceOrNewline c || !IsIdentifier c)

/-- `ParseToken` from glgen.cpp: skip non-identifier characters, consume a
maximal identifier run, hash it.  Returns the token and the rest of the buffer
(the cursor position). -/
def ParseToken (buf : List Char) : GLToken × List Char :=
  let b1 := skipToIdentifier buf
  let v := b1.takeWhile IsIdentifier
  ({ value := v, hash := GetStringHash v }, b1.dropWhile IsIdentifier)

/-- `ParseArbToken` from glgen.cpp: like `ParseToken` but without hashing
(the C code leaves `Hash` zero-initialized), and with the registry-specific
extension: if the token is immediately followed by a whitespace character and
then a `*`, both characters are consumed and appended to the token. -/
def ParseArbToken (buf : List Char) : GLArbToken × List Char :=
  let b1 := skipToIdentifier buf
  let v := b1.takeWhile IsIdentifier
  let rest := b1.dropWhile IsIdentifier
  match rest with
  | c1 :: c2 :: r2 =>
    if IsWhitespace c1 && c2 == '*' then
      ({ emptyGLArbToken with value := v ++ [c1, c2] }, r2)
    else
      ({ emptyGLArbToken with value := v }, rest)
  | _ => ({ emptyGLArbToken with value := v }, rest)

/-- `AdvanceToEndOfLine` from glgen.cpp:
`while(*At && !IsNewline(*At)) At++;`. -/
def AdvanceToEndOfLine (buf : List Char) : List Char :=
  buf.dropWhile (fun c => !IsNewline c)

/-! ### `StartsWith` and `Equal`

Both C functions compare a length-delimited token against a NUL-terminated
C string and stop at whichever end comes first.  `StartsWith` accepts as soon
as the overlapping portions agree (so a token that is shorter than the prefix
can still pass); `Equal` recomputes its result as `Index == Token.Length`
after the loop, which makes it accept exactly when the token is a nonempty
prefix of the reference string, not only when the two are equal. -/

/-- The comparison loop of `StartsWith`: walk both strings, stop at either
end, fail on the first mismatch. -/
def overlapEq : List Char → List Char → Bool
  | _, [] => true
  | [], _ => true
  | a :: as, b :: bs => a == b && overlapEq as bs

/-- `StartsWith(Token, Prefix)` from glgen.cpp. -/
def StartsWith (tok : List Char) (pre : List Char) : Bool :=
  !tok.isEmpty && overlapEq tok pre

/-- The comparison loop of `Equal` together with the final
`Result = Index == Token.Length` assignment: true iff the loop consumed the
whole token without a mismatch. -/
def equalLoop : List Char → List Char → Bool
  | [], _ => true
  | _ :: _, [] => false
  | a :: as, b :: bs => a == b && equalLoop as bs

/-- `Equal(Token, Value)` from glgen.cpp. -/
def Equal (tok : List Char) (v : List Char) : Bool :=
  !tok.isEmpty && equalLoop tok v

/-! ### The open-addressing symbol tables

`TOKEN_HASH_SIZE` is 8192.  Slots hold a full token; a slot whose stored hash
is 0 is empty.  The probe sequence starts at `Hash & (TOKEN_HASH_SIZE - 1)`
and advances by 1 with wraparound.  We model a table as a total function from
slot index to entry, and the C `Iterations` bound as structural fuel: with
initial fuel `TOKEN_HASH_SIZE`, fuel `0` corresponds to the loop guard
`Iterations++ < TOKEN_HASH_SIZE` failing. -/

def TOKEN_HASH_SIZE : Nat := 8192

/-- A slot index: a raw probe counter reduced modulo the table size
(the C code's `Index & (TOKEN_HASH_SIZE - 1)` after each advance). -/
def slotIdx (i : Nat) : Fin TOKEN_HASH_SIZE :=
  ⟨i % TOKEN_HASH_SIZE, Nat.mod_lt _ (by decide)⟩

/-- The table of `GLToken`s (the two result sets use this shape). -/
def GLTokenTable : Type := Fin TOKEN_HASH_SIZE → GLToken

/-- The table of `GLArbToken`s (the registry dictionary uses this shape). -/
def GLArbTable : Type := Fin TOKEN_HASH_SIZE → GLArbToken

/-- A table of empty (`calloc`-zeroed) `GLToken` slots. -/
def emptyGLTokenTable : GLTokenTable := fun _ => emptyGLToken

/-- A table of empty (`calloc`-zeroed) `GLArbToken` slots. -/
def emptyGLArbTable : GLArbTable := fun _ => emptyGLArbToken

/-- The probe loop of `Contains`:
`while(Matching->Hash && Iterations++ < TOKEN_HASH_SIZE) { if (Matching->Hash == Token.Hash) ... }`.
At fuel 0 the iteration guard fails and the loop exits with `Result = 0`
whatever the current slot holds. -/
def ContainsLoop (tbl : GLTokenTable) (q : Nat) (i : Nat) : Nat → Bool
  | 0 => false
  | fuel + 1 =>
    let s := tbl (slotIdx i)
    if s.hash = 0 then false
    else if s.hash = q then true
    else ContainsLoop tbl q (i + 1) fuel

/-- `Contains(TokenHash, Token)` from glgen.cpp.  Only `Token.Hash` is ever
compared; the stored `Value` text plays no part. -/
def Contains (tbl : GLTokenTable) (t : GLToken) : Bool :=
  ContainsLoop tbl t.hash (t.hash &&& (TOKEN_HASH_SIZE - 1)) TOKEN_HASH_SIZE

/-- The probe loop of `GetToken` together with the post-loop
`if (Matching->Hash != Hash) Matching = 0;` check, which runs on every way
out of the loop (empty slot reached, match found, or iterations exhausted). -/
def GetTokenLoop (tbl : GLArbTable) (q : Nat) (i : Nat) : Nat → Option GLArbToken
  | 0 =>
    let s := tbl (slotIdx i)
    if s.hash = q then some s else none
  | fuel + 1 =>
    let s := tbl (slotIdx i)
    if s.hash = 0 then (if s.hash = q then some s else none)
    else if s.hash = q then some s
    else GetTokenLoop tbl q (i + 1) fuel

/-- `GetToken(TokenHash, Hash)` from glgen.cpp: look an entry up by hash only;
a query hash of 0 short-circuits to "absent". -/
def GetToken (tbl : GLArbTable) (q : Nat) : Option GLArbToken :=
  if q = 0 then none
  else GetTokenLoop tbl q (q &&& (TOKEN_HASH_SIZE - 1)) TOKEN_HASH_SIZE

/-- The probe loop shared by both `AddToken` overloads: walk over occupied
slots (`Matching->Hash` non-zero) while `Iterations++ < TOKEN_HASH_SIZE`, and
report the slot that the final `if (Iterations < TOKEN_HASH_SIZE)` check
allows to be written, or `none` when the insert is dropped.  At fuel 0 the
final check fails even if the current slot is empty. -/
def FindFreeSlotLoop (occupied : Fin TOKEN_HASH_SIZE → Bool) (i : Nat) :
    Nat → Option (Fin TOKEN_HASH_SIZE)
  | 0 => none
  | fuel + 1 =>
    if occupied (slotIdx i) then FindFreeSlotLoop occupied (i + 1) fuel
    else some (slotIdx i)

/-- `AddToken(GLToken*, GLToken&)` from glgen.cpp.  The function always
returns `Result = 0` (the variable is never assigned), whether or not the
entry was stored. -/
def AddToken (tbl : GLTokenTable) (t : GLToken) : GLTokenTable × Int :=
  match FindFreeSlotLoop (fun j => (tbl j).hash ≠ 0)
      (t.hash &&& (TOKEN_HASH_SIZE - 1)) TOKEN_HASH_SIZE with
  | some j => (Function.update tbl j t, 0)
  | none => (tbl, 0)

/-- `AddToken(GLArbToken*, GLArbToken&)` from glgen.cpp: same probe, but the
caller receives the written slot (`none` models the NULL pointer returned
when the insert is dropped). -/
def AddArbToken (tbl : GLArbTable) (t : GLArbToken) :
    GLArbTable × Option (Fin TOKEN_HASH_SIZE) :=
  match FindFreeSlotLoop (fun j => (tbl j).hash ≠ 0)
      (t.hash &&& (TOKEN_HASH_SIZE - 1)) TOKEN_HASH_SIZE with
  | some j => (Function.update tbl j t, some j)
  | none => (tbl, none)

/-- `AddCustomToken` from glgen.cpp: hash a literal name and insert it into a
result set.  (The C code leaves the token's `Value` field uninitialized and
never reads it back from the table; the model stores the name.) -/
def AddCustomToken (tbl : GLTokenTable) (name : List Char) : GLTokenTable :=
  (AddToken tbl { value := name, hash := GetStringHash name }).1

/-- `TokenComparer` from glgen.cpp, the `qsort` comparison callback:
orders tokens by strictly descending hash and treats equal hashes as tied. -/
def TokenComparer (a b : GLToken) : Int :=
  if a.hash > b.hash then -1
  else if b.hash > a.hash then 1
  else 0

/-! ### Reading input: `ReadMultiFiles`

The registry buffer is built by appending each (openable, non-empty) registry
file in command-line order, NUL-terminating after each append, and — whenever
a previous file is already in the buffer — overwriting the two bytes just
before the new file's data (`Result[RunningSize-2]`, `Result[RunningSize-1]`,
i.e. the previous file's final byte and the NUL after it) with two newlines.
Files that fail to open or are empty contribute nothing.  The model takes the
list of file contents (missing files are represented by empty contents). -/

/-- One iteration of the `ReadMultiFiles` loop: append one file's contents.
The model keeps the buffer without its terminating NUL byte (the C string's
end corresponds to the end of the list), so the two overwritten bytes
`Result[RunningSize-2]` and `Result[RunningSize-1]` are the accumulated
buffer's final byte and the position right after it. -/
def readMultiStep (buf : List Char) (content : List Char) : List Char :=
  if content.isEmpty then buf
  else if buf.isEmpty then content
  else buf.dropLast ++ ['\n', '\n'] ++ content

/-- `ReadMultiFiles` from glgen.cpp, as the resulting buffer.  An empty result
models the NULL pointer returned when no file contributed. -/
def ReadMultiFiles (files : List (List Char)) : List Char :=
  files.foldl readMultiStep []

/-- The closed form of the buffer `ReadMultiFiles` produces from non-empty
file contents (stated for the amended claim C9): every file but the last
loses its final byte, which is overwritten together with the byte after it by
the two newline characters of the separator; the last file's bytes are kept
unchanged. -/
def ClobberedJoin : List (List Char) → List Char
  | [] => []
  | [c] => c
  | c :: rest => c.dropLast ++ ['\n', '\n'] ++ ClobberedJoin rest

/-! ### The source scanner / cross-referencer (`IsKnownOrIgnoredToken`, `ParseFile`) -/

/-- `GLSettings`, restricted to the fields the generation core reads.  File
arguments are modeled by their contents (`registryFiles`, `inputFiles`); a
file that cannot be read behaves as empty.  `silent` and `outputPath` are
carried along to witness that the emitted bytes do not depend on them. -/
structure GLSettings where
  registryFiles : List (List Char)
  inputFiles : List (List Char)
  ignores : List (List Char)
  pfx : List Char
  boilerplate : Bool
  silent : Bool
  writeTimestamp : Nat
  outputPath : List Char

/-- `IsKnownOrIgnoredToken` from glgen.cpp, as a pure predicate: the token is
accepted iff the registry table holds its hash, or `Equal` relates its text to
some ignore-list entry.  (The C function also prints the warning when it
returns 0; the scanner model below records that warning.) -/
def IsKnownOrIgnoredToken (arb : GLArbTable) (t : GLToken)
    (ignores : List (List Char)) : Bool :=
  match GetToken arb t.hash with
  | some _ => true
  | none => ignores.any (fun ig => Equal t.value ig)

/-- The mutable state threaded through `ParseFile`: the two result sets with
their counts, plus the sequence of "Token not found in header" warnings
written to stderr (each recorded by the offending token's text). -/
structure ScanState where
  functionsHash : GLTokenTable
  functionCount : Nat
  definesHash : GLTokenTable
  definesCount : Nat
  warnings : List (List Char)

/-- Function-name candidate test from `ParseFile`:
`StartsWith(Token.Value, "gl") && IsUpperCase(Token.Value.Chars[2])`.
`Token.Value.Chars[2]` indexes the underlying buffer from the token start, so
for a token shorter than 3 characters it reads past the token (the next
buffer character, or the terminating NUL at the end of the buffer); `atStart`
is the buffer suffix beginning at the token. -/
def isFunctionCandidate (v : List Char) (atStart : List Char) : Bool :=
  StartsWith v ['g', 'l'] && IsUpperCase (atStart.getD 2 '\x00')

/-- Macro-name candidate test from `ParseFile`: `StartsWith(Token.Value, "GL_")`. -/
def isDefineCandidate (v : List Char) : Bool :=
  StartsWith v ['G', 'L', '_']

/-- The body of `ParseFile`'s scanning loop for one scanned token.
`atStart` is the buffer from the token's first character onward.  Each of the
two candidate rules runs in order on the state left by the previous one; a
candidate not yet in its result set is validated with
`IsKnownOrIgnoredToken`, then either inserted and counted, or recorded as a
warning. -/
def scanTokenStep (arb : GLArbTable) (ignores : List (List Char))
    (st : ScanState) (t : GLToken) (atStart : List Char) : ScanState :=
  let st1 :=
    if isFunctionCandidate t.value atStart then
      if !Contains st.functionsHash t then
        if IsKnownOrIgnoredToken arb t ignores then
          { st with functionsHash := (AddToken st.functionsHash t).1,
                    functionCount := st.functionCount + 1 }
        else { st with warnings := st.warnings ++ [t.value] }
      else st
    else st
  if isDefineCandidate t.value then
    if !Contains st1.definesHash t then
      if IsKnownOrIgnoredToken arb t ignores then
        { st1 with definesHash := (AddToken st1.definesHash t).1,
                   definesCount := st1.definesCount + 1 }
      else { st1 with warnings := st1.warnings ++ [t.value] }
    else st1
  else st1

/-- The function-name half of `scanTokenStep` (the first candidate rule of
`ParseFile`'s loop body) in isolation. -/
def scanFunctionStep (arb : GLArbTable) (ignores : List (List Char))
    (st : ScanState) (t : GLToken) (atStart : List Char) : ScanState :=
  if isFunctionCandidate t.value atStart then
    if !Contains st.functionsHash t then
      if IsKnownOrIgnoredToken arb t ignores then
        { st with functionsHash := (AddToken st.functionsHash t).1,
                  functionCount := st.functionCount + 1 }
      else { st with warnings := st.warnings ++ [t.value] }
    else st
  else st

/-- The macro-name half of `scanTokenStep` (the second candidate rule of
`ParseFile`'s loop body) in isolation. -/
def scanDefineStep (arb : GLArbTable) (ignores : List (List Char))
    (st : ScanState) (t : GLToken) : ScanState :=
  if isDefineCandidate t.value then
    if !Contains st.definesHash t then
      if IsKnownOrIgnoredToken arb t ignores then
        { st with definesHash := (AddToken st.definesHash t).1,
                  definesCount := st.definesCount + 1 }
      else { st with warnings := st.warnings ++ [t.value] }
    else st
  else st

/-- The `while(*Tokenizer.At)` loop of `ParseFile`.  The fuel bounds the
number of iterations; every iteration of the C loop consumes at least one
character, so fuel `buf.length` runs the loop to completion. -/
def ParseFileLoop (arb : GLArbTable) (ignores : List (List Char)) :
    Nat → List Char → ScanState → ScanState
  | 0, _, st => st
  | _ + 1, [], st => st
  | fuel + 1, buf, st =>
    let p := ParseToken buf
    let atStart := p.1.value ++ p.2
    ParseFileLoop arb ignores fuel p.2 (scanTokenStep arb ignores st p.1 atStart)

/-- `ParseFile` from glgen.cpp, given the file's contents.  A file that could
not be opened or was empty leaves the state unchanged (only a diagnostic is
printed). -/
def ParseFile (arb : GLArbTable) (ignores : List (List Char))
    (content : List Char) (st : ScanState) : ScanState :=
  if content.isEmpty then st
  else ParseFileLoop arb ignores content.length content st

/-! ### The registry parser

The `while(*Tokenizer.At)` loop at the top of `GenerateOpenGLHeader`:
a token `Equal` to `"GLAPI"` starts a function declaration, a token that
`StartsWith` `"#define"` starts a macro declaration; anything else is skipped.
Slices into the registry buffer are reproduced by length arithmetic on the
remaining-buffer lists (the cursor is a suffix of the buffer, so
`before.length - after.length` is the number of characters a phase consumed). -/

/-- The `GLAPI` production, starting right after the `GLAPI` token: read the
return type (merging a leading `const`), discard the calling-convention
token, read the function name, hash it, and capture the return-type,
parameter-list and full-line slices.  Returns the assembled entry, the
cursor right after the name (where scanning resumes if the symbol is a
duplicate), and the cursor at end of line (where scanning resumes after an
insert).  `tokValue` is the `GLAPI` token's text, `rest1` the buffer after
it. -/
def glapiEntry (tokValue rest1 : List Char) : GLArbToken × List Char × List Char :=
  let q := ParseArbToken rest1
  let rest3 := if Equal q.1.value "const".data then (ParseArbToken q.2).2 else q.2
  let returnTypeLen := rest1.length - rest3.length
  let rest4 := (ParseArbToken rest3).2
  let pn := ParseArbToken rest4
  let restEOL := AdvanceToEndOfLine pn.2
  let lineStart := tokValue ++ rest1
  ({ value := pn.1.value, hash := GetStringHash pn.1.value,
     functionName := pn.1.value,
     returnType := rest1.take returnTypeLen,
     parameters := pn.2.take (pn.2.length - restEOL.length),
     line := lineStart.take (lineStart.length - restEOL.length),
     lineAfter := restEOL.headD '\x00' }, pn.2, restEOL)

/-- The `#define` production, starting right after the `#define`-prefixed
token: read the macro name, hash it, and capture the full line.  Returns the
entry, the cursor after the name, and the cursor at end of line, as in
`glapiEntry`. -/
def defineEntry (tokValue rest1 : List Char) : GLArbToken × List Char × List Char :=
  let pn := ParseArbToken rest1
  let restEOL := AdvanceToEndOfLine pn.2
  let lineStart := tokValue ++ rest1
  ({ value := pn.1.value, hash := GetStringHash pn.1.value,
     functionName := [], returnType := [], parameters := [],
     line := lineStart.take (lineStart.length - restEOL.length),
     lineAfter := restEOL.headD '\x00' }, pn.2, restEOL)

/-- The registry scanning loop.  State: remaining buffer, the dictionary
table, and `ArbTokenCount`.  Fuel bounds the iterations; every iteration
consumes at least one character, so fuel `buf.length` completes the scan.
A duplicate hash (`GetToken` hit) discards the declaration and resumes right
after the name token, without advancing to end of line, exactly as in the C
code. -/
def ParseRegistryLoop : Nat → List Char → GLArbTable → Nat → GLArbTable × Nat
  | 0, _, tbl, count => (tbl, count)
  | _ + 1, [], tbl, count => (tbl, count)
  | fuel + 1, b0 :: brest, tbl, count =>
    let p := ParseArbToken (b0 :: brest)
    if Equal p.1.value "GLAPI".data then
      let r := glapiEntry p.1.value p.2
      match GetToken tbl r.1.hash with
      | some _ => ParseRegistryLoop fuel r.2.1 tbl count
      | none => ParseRegistryLoop fuel r.2.2 (AddArbToken tbl r.1).1 (count + 1)
    else if StartsWith p.1.value "#define".data then
      let r := defineEntry p.1.value p.2
      match GetToken tbl r.1.hash with
      | some _ => ParseRegistryLoop fuel r.2.1 tbl count
      | none => ParseRegistryLoop fuel r.2.2 (AddArbToken tbl r.1).1 (count + 1)
    else
      ParseRegistryLoop fuel p.2 tbl count

/-- The registry-parsing phase of `GenerateOpenGLHeader`: scan the whole
concatenated registry buffer into a fresh dictionary. -/
def ParseRegistry (buf : List Char) : GLArbTable × Nat :=
  ParseRegistryLoop buf.length buf emptyGLArbTable 0

/-! ### Sorting the result sets

`GenerateOpenGLHeader` calls `qsort` on the full 8192-slot backing arrays
with `TokenComparer`.  `qsort` guarantees only that the result is a
permutation of the array ordered by the comparer; `QsortPost` states that
contract, and `SortTokensDesc` (insertion sort by descending hash) is the
canonical function satisfying it, used for the executable pipeline. -/

/-- The backing array of a result set, as the list of its 8192 slots in
index order. -/
def TableToList (tbl : GLTokenTable) : List GLToken :=
  (List.finRange TOKEN_HASH_SIZE).map tbl

/-- `a` sorts no later than `b` under `TokenComparer`. -/
def comparerLE (a b : GLToken) : Prop := TokenComparer a b ≤ 0

/-- The `qsort` contract: the output is a permutation of the input, ordered
by `TokenComparer` (descending stored hash). -/
def QsortPost (input output : List GLToken) : Prop :=
  output.Perm input ∧ output.Pairwise comparerLE

/-- Insert one token into a list already sorted by descending hash. -/
def InsertDesc (t : GLToken) : List GLToken → List GLToken
  | [] => [t]
  | x :: xs => if x.hash ≤ t.hash then t :: x :: xs else x :: InsertDesc t xs

/-- Insertion sort by descending hash: the executable model of the `qsort`
calls (any comparer-sorted permutation of a result-set array coincides with
it, because distinct populated entries never share a hash and empty slots are
identical). -/
def SortTokensDesc (l : List GLToken) : List GLToken :=
  l.foldr InsertDesc []

/-! ### The header emitter

Each definition below is one `fprintf`/`fwrite` payload of
`GenerateOpenGLHeader`, with `%s`/`%.*s` interpolations spelled out as list
concatenation (`pfx` is the configured function prefix, `GEN_` the fixed
`ProcPrefix`).  Braces inside the emitted C text are written `\x7b`/`\x7d`.
`GenerateOutput` is the byte sequence of the output file on the successful
path (output file opened, registry buffer non-empty). -/

/-- `toupper` restricted to ASCII, as `UpperCase` applies it. -/
def toUpperChar (c : Char) : Char :=
  if 'a' ≤ c && c ≤ 'z' then Char.ofNat (c.toNat - 32) else c

/-- `UpperCase` from glgen.cpp: upper-case a name character by character. -/
def UpperCase (s : List Char) : List Char :=
  s.map toUpperChar

/-- The include guard and generation-timestamp comment (the first `fprintf`):
`%llu` renders `Settings->WriteTimestamp` in decimal. -/
def HeaderChunk (ts : Nat) : List Char :=
  ("#ifndef INCLUDE_OPENGL_GENERATED_H\n#define INCLUDE_OPENGL_GENERATED_H\n\n// NOTE: This file is generated automatically. Do not edit.\n// @GENERATED: ").data
  ++ (Nat.repr ts).data ++ "\n\n".data

/-- The version-record type and `OpenGLInit` forward declaration, emitted only
when boilerplate is enabled. -/
def IntroChunk (pfx : List Char) : List Char :=
  "typedef struct ".data ++ pfx ++ "OpenGLVersion\n\x7b\n  int Major;\n  int Minor;\n\x7d ".data
  ++ pfx ++ "OpenGLVersion;\n// Call this function to initialize OpenGL.\n// Example:\n//\n//    ".data
  ++ pfx ++ "OpenGLVersion Version;\n//    ".data
  ++ pfx ++ "OpenGLInit(&Version);\n//    if(Version.Major < 3)\n//    \x7b\n//       printf(\"OpenGL 3 or above required.\\n\");\n//       return 0;\n//    \x7d\n//\nstatic void ".data
  ++ pfx ++ "OpenGLInit(".data ++ pfx ++ "OpenGLVersion* Version);\n\n\n".data

/-- The fixed baseline block: `APIENTRY`/`GLAPI` fallbacks and the primitive
`GL*` type aliases. -/
def BaselineChunk : List Char :=
  ("#ifndef APIENTRY\n#define APIENTRY\n#endif\n#ifndef APIENTRYP\n#define APIENTRYP APIENTRY *\n#endif\n#ifndef GLAPI\n#define GLAPI extern\n#endif\n\ntypedef void GLvoid;\ntypedef unsigned int GLenum;\ntypedef float GLfloat;\ntypedef int GLint;\ntypedef int GLsizei;\ntypedef unsigned int GLbitfield;\ntypedef double GLdouble;\ntypedef unsigned int GLuint;\ntypedef unsigned char GLboolean;\ntypedef unsigned char GLubyte;\ntypedef char GLchar;\ntypedef short GLshort;\ntypedef signed char GLbyte;\ntypedef unsigned short GLushort;\ntypedef ptrdiff_t GLsizeiptr;\ntypedef ptrdiff_t GLintptr;\ntypedef float GLclampf;\ntypedef double GLclampd;\ntypedef unsigned short GLhalf;\n\n").data

/-- The `"\n\n"` spacer written with `fwrite`. -/
def SpacerChunk : List Char := "\n\n".data

/-- The fixed `GLDEBUGPROC` type alias. -/
def DebugProcChunk : List Char :=
  "typedef void (APIENTRY *GLDEBUGPROC)(GLenum source,GLenum type,GLuint id,GLenum severity,GLsizei length,const GLchar *message,const void *userParam);\n".data

/-- One emitted macro line: the captured registry line plus the following
byte (the `fwrite` writes `Line.Length + 1` bytes). -/
def DefineLineChunk (e : GLArbToken) : List Char :=
  e.line ++ [e.lineAfter]

/-- The macro-emission loop: for each of the first `count` sorted tokens,
re-look its declaration up by hash and emit the captured line; a token with
no registry match is skipped silently. -/
def DefinesChunks (arb : GLArbTable) (sorted : List GLToken) (count : Nat) :
    List (List Char) :=
  (sorted.take count).filterMap (fun t => (GetToken arb t.hash).map DefineLineChunk)

/-- One function-pointer type alias:
`typedef %.*s (APIENTRYP PFN%sPROC) %.*s\n` with the captured return type,
the upper-cased name, and the captured parameter text. -/
def TypedefChunk (e : GLArbToken) : List Char :=
  "typedef ".data ++ e.returnType ++ " (APIENTRYP PFN".data
  ++ UpperCase e.functionName ++ "PROC) ".data ++ e.parameters ++ "\n".data

/-- The function-typedef emission loop. -/
def FunctionTypedefChunks (arb : GLArbTable) (sorted : List GLToken) (count : Nat) :
    List (List Char) :=
  (sorted.take count).filterMap (fun t => (GetToken arb t.hash).map TypedefChunk)

/-- One redefinition macro: `#define %.*s %s%.*s\n` (original name to the
`GEN_`-prefixed global). -/
def RedirectChunk (e : GLArbToken) : List Char :=
  "#define ".data ++ e.functionName ++ " GEN_".data ++ e.functionName ++ "\n".data

/-- The redefinition-macro loop (boilerplate only). -/
def RedirectChunks (arb : GLArbTable) (sorted : List GLToken) (count : Nat) :
    List (List Char) :=
  (sorted.take count).filterMap (fun t => (GetToken arb t.hash).map RedirectChunk)

/-- One global function-pointer variable: `PFN%sPROC %s%.*s;\n`. -/
def GlobalChunk (e : GLArbToken) : List Char :=
  "PFN".data ++ UpperCase e.functionName ++ "PROC GEN_".data ++ e.functionName ++ ";\n".data

/-- The global-variable loop (boilerplate only). -/
def GlobalChunks (arb : GLArbTable) (sorted : List GLToken) (count : Nat) :
    List (List Char) :=
  (sorted.take count).filterMap (fun t => (GetToken arb t.hash).map GlobalChunk)

/-- The three platform-conditioned loader blocks (boilerplate only), with the
configured prefix interpolated at every `%s`. -/
def LoaderChunk (pfx : List Char) : List Char :=
  "\n\ntypedef void (*".data ++ pfx ++ "OpenGLProc)(void);\n\n#ifdef _WIN32\nstatic HMODULE ".data
  ++ pfx ++ "OpenGLHandle;\nstatic void ".data
  ++ pfx ++ "LoadOpenGL()\n\x7b\n  ".data
  ++ pfx ++ "OpenGLHandle = LoadLibraryA(\"opengl32.dll\");\n\x7d\nstatic void ".data
  ++ pfx ++ "UnloadOpenGL()\n\x7b\n  FreeLibrary(".data
  ++ pfx ++ "OpenGLHandle);\n\x7d\nstatic ".data
  ++ pfx ++ "OpenGLProc ".data
  ++ pfx ++ "OpenGLGetProc(const char *proc)\n\x7b\n  ".data
  ++ pfx ++ "OpenGLProc Result = (".data
  ++ pfx ++ "OpenGLProc)wglGetProcAddress(proc);\n  if (!Result)\n    Result = (".data
  ++ pfx ++ "OpenGLProc)GetProcAddress(".data
  ++ pfx ++ "OpenGLHandle, proc);\n  return Result;\n\x7d\n#elif defined(__APPLE__) || defined(__APPLE_CC__)\n#include <Carbon/Carbon.h>\n\nstatic CFBundleRef GEN_Bundle;\nstatic CFURLRef GEN_BundleURL;\n\nstatic void ".data
  ++ pfx ++ "LoadOpenGL()\n\x7b\n  GEN_BundleURL = CFURLCreateWithFileSystemPath(kCFAllocatorDefault,\n    CFSTR(\"/System/Library/Frameworks/OpenGL.framework\"),\n    kCFURLPOSIXPathStyle, 1);\n  GEN_Bundle = CFBundleCreate(kCFAllocatorDefault, GEN_BundleURL);\n\x7d\nstatic void ".data
  ++ pfx ++ "UnloadOpenGL()\n\x7b\n  CFRelease(GEN_Bundle);\n  CFRelease(GEN_BundleURL);\n\x7d\nstatic ".data
  ++ pfx ++ "OpenGLProc ".data
  ++ pfx ++ "OpenGLGetProc(const char *proc)\n\x7b\n  CFStringRef ProcName = CFStringCreateWithCString(kCFAllocatorDefault, proc,\n    kCFStringEncodingASCII);\n  ".data
  ++ pfx ++ "OpenGLProc Result = (".data
  ++ pfx ++ "OpenGLProc) CFBundleGetFunctionPointerForName(GEN_Bundle, ProcName);\n  CFRelease(ProcName);\n  return Result;\n\x7d\n#else\n#include <dlfcn.h>\n\nstatic void *".data
  ++ pfx ++ "OpenGLHandle;\ntypedef void (*__GLXextproc)(void);\ntypedef __GLXextproc (* PFNGLXGETPROCADDRESSPROC) (const GLubyte *procName);\nstatic PFNGLXGETPROCADDRESSPROC glx_get_proc_address;\nstatic void ".data
  ++ pfx ++ "LoadOpenGL()\n\x7b\n  ".data
  ++ pfx ++ "OpenGLHandle = dlopen(\"libGL.so.1\", RTLD_LAZY | RTLD_GLOBAL);\n  glx_get_proc_address = (PFNGLXGETPROCADDRESSPROC) dlsym(".data
  ++ pfx ++ "OpenGLHandle, \"glXGetProcAddressARB\");\n\x7d\nstatic void ".data
  ++ pfx ++ "UnloadOpenGL()\n\x7b\n  dlclose(".data
  ++ pfx ++ "OpenGLHandle);\n\x7d\nstatic ".data
  ++ pfx ++ "OpenGLProc ".data
  ++ pfx ++ "OpenGLGetProc(const char *proc)\n\x7b\n  ".data
  ++ pfx ++ "OpenGLProc Result = (".data
  ++ pfx ++ "OpenGLProc) glx_get_proc_address((const GLubyte *) proc);\n  if (!Result)\n    Result = (".data
  ++ pfx ++ "OpenGLProc) dlsym(".data
  ++ pfx ++ "OpenGLHandle, proc);\n  return Result;\n\x7d\n#endif\n\n".data

/-- The head of the emitted `OpenGLInit` function (boilerplate only). -/
def InitHeadChunk (pfx : List Char) : List Char :=
  "\n\nvoid ".data ++ pfx ++ "OpenGLInit(".data ++ pfx
  ++ "OpenGLVersion* Version)\n\x7b\n  ".data ++ pfx ++ "LoadOpenGL();\n\n".data

/-- One proc-address resolution line inside `OpenGLInit`:
`  %s%.*s = (PFN%sPROC)%sOpenGLGetProc("%.*s");\n`. -/
def InitLineChunk (pfx : List Char) (e : GLArbToken) : List Char :=
  "  GEN_".data ++ e.functionName ++ " = (PFN".data ++ UpperCase e.functionName
  ++ "PROC)".data ++ pfx ++ "OpenGLGetProc(\"".data ++ e.functionName ++ "\");\n".data

/-- The proc-address resolution loop (boilerplate only). -/
def InitLineChunks (arb : GLArbTable) (sorted : List GLToken) (count : Nat)
    (pfx : List Char) : List (List Char) :=
  (sorted.take count).filterMap (fun t => (GetToken arb t.hash).map (InitLineChunk pfx))

/-- The closing `#endif` line of the include guard. -/
def EndifLine : List Char := "#endif // INCLUDE_OPENGL_GENERATED_H\n".data

/-- The tail of `OpenGLInit` — unload, version query — followed by the
closing `#endif` of the include guard.  This chunk is emitted only on the
boilerplate path. -/
def FinalChunk (pfx : List Char) : List Char :=
  "\n  ".data ++ pfx
  ++ "UnloadOpenGL();\n\n  Version->Major = 0;\n  Version->Minor = 0;\n  if (glGetIntegerv)\n  \x7b\n    glGetIntegerv(GL_MAJOR_VERSION, &Version->Major);\n    glGetIntegerv(GL_MINOR_VERSION, &Version->Minor);\n  \x7d\n\x7d\n\n".data
  ++ EndifLine

/-! ### The generation pipeline (`GenerateOpenGLHeader`) -/

/-- The result-set state right before the input-scanning loop: both sets are
pre-seeded unconditionally — `DefinesCount = 2` with `GL_MAJOR_VERSION` and
`GL_MINOR_VERSION`, `FunctionCount = 1` with `glGetIntegerv` — and no
warnings have been issued. -/
def InitialScanState : ScanState :=
  { functionsHash := AddCustomToken emptyGLTokenTable "glGetIntegerv".data,
    functionCount := 1,
    definesHash :=
      AddCustomToken (AddCustomToken emptyGLTokenTable "GL_MAJOR_VERSION".data)
        "GL_MINOR_VERSION".data,
    definesCount := 2,
    warnings := [] }

/-- The input-scanning loop of `GenerateOpenGLHeader`: `ParseFile` over every
input file in command-line order, starting from the pre-seeded state. -/
def ScanInputs (arb : GLArbTable) (ignores : List (List Char))
    (inputs : List (List Char)) : ScanState :=
  inputs.foldl (fun st content => ParseFile arb ignores content st) InitialScanState

/-- Every output chunk after the guard-and-timestamp header, in emission
order.  None of these depends on `WriteTimestamp`; the parameters are the
registry file contents, input file contents, ignore list, prefix and
boilerplate flag. -/
def GenerateChunksTail (registry inputs ignores : List (List Char))
    (pfx : List Char) (boilerplate : Bool) : List (List Char) :=
  let arb := (ParseRegistry (ReadMultiFiles registry)).1
  let st := ScanInputs arb ignores inputs
  let sortedF := SortTokensDesc (TableToList st.functionsHash)
  let sortedD := SortTokensDesc (TableToList st.definesHash)
  (if boilerplate then [IntroChunk pfx] else [])
  ++ [BaselineChunk]
  ++ DefinesChunks arb sortedD st.definesCount
  ++ [SpacerChunk, DebugProcChunk]
  ++ FunctionTypedefChunks arb sortedF st.functionCount
  ++ (if boilerplate then
        SpacerChunk :: RedirectChunks arb sortedF st.functionCount
        ++ SpacerChunk :: GlobalChunks arb sortedF st.functionCount
        ++ [LoaderChunk pfx, InitHeadChunk pfx]
        ++ InitLineChunks arb sortedF st.functionCount pfx
        ++ [FinalChunk pfx]
      else [])

/-- The sequence of chunks `GenerateOpenGLHeader` writes to the output file,
in order, on the successful path (the output file opened and the registry
buffer was non-empty).  The two `qsort` calls are modeled by
`SortTokensDesc` (see `QsortPost`). -/
def GenerateChunks (s : GLSettings) : List (List Char) :=
  HeaderChunk s.writeTimestamp ::
    GenerateChunksTail s.registryFiles s.inputFiles s.ignores s.pfx s.boilerplate

/-- The byte content of the generated output file: the concatenation of the
emitted chunks. -/
def GenerateOutput (s : GLSettings) : List Char :=
  (GenerateChunks s).flatten

/-! ## Theorems -/

/-! ### The hash function -/

theorem getStringHashLoop_eq_foldl (acc : Nat) (s : List Char) :
    GetStringHashLoop acc s = s.foldl hashStep acc := by
  induction s generalizing acc with
  | nil => rfl
  | cons c rest ih => simp [GetStringHashLoop, List.foldl, ih]

theorem getStringHashLoop_append (acc : Nat) (s t : List Char) :
    GetStringHashLoop acc (s ++ t) = GetStringHashLoop (GetStringHashLoop acc s) t := by
  induction s generalizing acc with
  | nil => rfl
  | cons c rest ih => simp [GetStringHashLoop, ih]

theorem hashStep_lt (acc : Nat) (c : Char) : hashStep acc c < 4294967296 := by
  have h1 : acc * 0x01000193 % 4294967296 < 4294967296 := Nat.mod_lt _ (by norm_num)
  have h2 : byteOf c < 4294967296 :=
    lt_of_lt_of_le (Nat.mod_lt _ (by norm_num)) (by norm_num)
  have := Nat.xor_lt_two_pow (n := 32) (by exact_mod_cast h1) (by exact_mod_cast h2)
  simpa [Nat.xor] using this

theorem getStringHashLoop_lt (acc : Nat) (s : List Char) (h : acc < 4294967296) :
    GetStringHashLoop acc s < 4294967296 := by
  induction s generalizing acc with
  | nil => simpa [GetStringHashLoop]
  | cons c rest ih => exact ih _ (hashStep_lt acc c)

/-- C4: `GetStringHash` is exactly the fold that starts from seed 1 and, for
each byte in order, first multiplies the 32-bit accumulator by `0x01000193`
(mod `2^32`) and then XORs in the byte; the result is a 32-bit value, and
appending one byte performs one multiply-then-XOR step. -/
theorem claimC4_theorem (s : List Char) :
    GetStringHash s
      = s.foldl (fun h c => Nat.xor (h * 0x01000193 % 2 ^ 32) (c.toNat % 256)) 1
    ∧ GetStringHash s < 2 ^ 32
    ∧ ∀ c : Char, GetStringHash (s ++ [c])
      = Nat.xor (GetStringHash s * 0x01000193 % 2 ^ 32) (c.toNat % 256) := by
  refine ⟨?_, ?_, ?_⟩
  · rw [GetStringHash, getStringHashLoop_eq_foldl]
    rfl
  · have := getStringHashLoop_lt 1 s (by norm_num)
    rw [GetStringHash]
    exact_mod_cast this
  · intro c
    rw [GetStringHash, getStringHashLoop_append]
    norm_num [GetStringHashLoop, hashStep, byteOf, GetStringHash]

/-! ### What `Equal` decides, and claim C1 -/

theorem equalLoop_iff_prefix (tok v : List Char) :
    equalLoop tok v = true ↔ tok <+: v := by
  induction tok generalizing v with
  | nil => simp [equalLoop]
  | cons a as ih =>
    cases v with
    | nil => simp [equalLoop]
    | cons b bs =>
      simp only [equalLoop, Bool.and_eq_true, beq_iff_eq, ih, List.cons_prefix_cons]

/-- What `Equal` really decides: the token is nonempty and is a prefix of the
reference string (the reference may be strictly longer). -/
theorem equal_iff (tok v : List Char) :
    Equal tok v = true ↔ tok ≠ [] ∧ tok <+: v := by
  simp [Equal, equalLoop_iff_prefix, List.isEmpty_iff]

/-- C1 fails as stated: with an empty registry table and ignore list
`["glAbc"]`, the scanned token `glAb` is accepted by
`IsKnownOrIgnoredToken` even though its hash is not in the registry table and
its text equals no ignore entry — `Equal` performs a prefix match, not a full
string comparison. -/
theorem claimC1_counterexample :
    IsKnownOrIgnoredToken emptyGLArbTable
        { value := "glAb".data, hash := GetStringHash "glAb".data }
        ["glAbc".data] = true
    ∧ GetToken emptyGLArbTable (GetStringHash "glAb".data) = none
    ∧ "glAb".data ≠ "glAbc".data := by
  refine ⟨by decide, by decide, by decide⟩

/-- C1 amended: a candidate token (not already in its result set) is accepted
iff the registry table contains an entry with the same hash, or the token's
literal text is a nonempty prefix of one of the configured ignore-list
entries (full equality is the equal-length special case; the comparison is by
text, not hash). -/
theorem claimC1_theorem (arb : GLArbTable) (t : GLToken)
    (ignores : List (List Char)) :
    IsKnownOrIgnoredToken arb t ignores = true ↔
      (∃ e, GetToken arb t.hash = some e)
      ∨ ∃ ig ∈ ignores, t.value ≠ [] ∧ t.value <+: ig := by
  rw [IsKnownOrIgnoredToken]
  cases h : GetToken arb t.hash with
  | some e => simp [h]
  | none =>
    simp only [h, List.any_eq_true]
    constructor
    · rintro ⟨ig, hig, he⟩
      exact Or.inr ⟨ig, hig, (equal_iff _ _).1 he⟩
    · rintro (⟨e, he⟩ | ⟨ig, hig, he⟩)
      · exact absurd he (by simp)
      · exact ⟨ig, hig, (equal_iff _ _).2 he⟩

/-! ### `ReadMultiFiles` and claim C9 -/

theorem readMultiStep_of_ne_nil (buf c : List Char) (hbuf : buf ≠ []) (hc : c ≠ []) :
    readMultiStep buf c = buf.dropLast ++ ['\n', '\n'] ++ c := by
  rw [readMultiStep, if_neg (by simpa [List.isEmpty_iff] using hc),
    if_neg (by simpa [List.isEmpty_iff] using hbuf)]

theorem readMultiFoldl_closed (buf c : List Char) (rest : List (List Char))
    (hbuf : buf ≠ []) (hne : ∀ x ∈ c :: rest, x ≠ []) :
    (c :: rest).foldl readMultiStep buf =
      buf.dropLast ++ ['\n', '\n'] ++ ClobberedJoin (c :: rest) := by
  induction rest generalizing buf c with
  | nil =>
    rw [List.foldl_cons, List.foldl_nil,
      readMultiStep_of_ne_nil buf c hbuf (hne c (by simp))]
    rfl
  | cons d ds ih =>
    have hc : c ≠ [] := hne c (by simp)
    rw [List.foldl_cons, readMultiStep_of_ne_nil buf c hbuf hc,
      ih _ d (by simp [hc]) (fun x hx => hne x (by simp at hx; simp [hx]))]
    have h1 : ClobberedJoin (c :: d :: ds)
        = c.dropLast ++ ['\n', '\n'] ++ ClobberedJoin (d :: ds) := rfl
    rw [h1, List.dropLast_append_of_ne_nil _ hc]
    simp

/-- C9 fails as stated: concatenating the registry files `"AB"` and `"CD"`
yields the buffer `"A\n\nCD"` — the first file's final byte `B` is
overwritten by the separator, so the first file's bytes are not preserved
unchanged in the concatenated buffer. -/
theorem claimC9_counterexample :
    ReadMultiFiles ["AB".data, "CD".data] = "A\n\nCD".data
    ∧ ¬ ("AB".data <:+: ReadMultiFiles ["AB".data, "CD".data]) := by
  refine ⟨by decide, by decide⟩

/-- C9 amended: the buffer handed to the registry parser is the files'
contents in command-line order where, for each non-final (non-empty) file,
the file's final byte and the byte after it are overwritten with two newline
characters — so a file already ending in a newline is joined to the next by a
blank line, while the bytes of any other non-final file are not preserved;
the final file's bytes are kept unchanged, and empty or unreadable files
contribute nothing. -/
theorem claimC9_theorem (files : List (List Char)) (hne : ∀ c ∈ files, c ≠ []) :
    ReadMultiFiles files = ClobberedJoin files := by
  cases files with
  | nil => rfl
  | cons c rest =>
    have hc : c ≠ [] := hne c (by simp)
    rw [ReadMultiFiles, List.foldl_cons]
    have hstep : readMultiStep [] c = c := by
      rw [readMultiStep, if_neg (by simpa [List.isEmpty_iff] using hc)]
      simp
    cases rest with
    | nil => rw [hstep]; rfl
    | cons d ds =>
      rw [hstep, readMultiFoldl_closed c d ds hc
        (fun x hx => hne x (by simp at hx; simp [hx]))]
      rfl

/-- Witness for C9 at the two-file input `["A\n", "B\n"]`: both files end in
a newline, and the resulting buffer is `"A\n\nB\n"`. -/
theorem claimC9_witness :
    (∀ c ∈ [['A', '\n'], ['B', '\n']], c ≠ [])
    ∧ ReadMultiFiles [['A', '\n'], ['B', '\n']] = ClobberedJoin [['A', '\n'], ['B', '\n']] :=
  ⟨by decide, claimC9_theorem [['A', '\n'], ['B', '\n']] (by decide)⟩

/-! ### Probe-sequence lemmas for the symbol tables -/

theorem and_mask_eq_mod (h : Nat) :
    h &&& (TOKEN_HASH_SIZE - 1) = h % TOKEN_HASH_SIZE := by
  have := Nat.and_pow_two_sub_one_eq_mod h 13
  norm_num [TOKEN_HASH_SIZE] at this ⊢
  exact this

theorem slotIdx_add_size (i : Nat) : slotIdx (i + TOKEN_HASH_SIZE) = slotIdx i := by
  simp [slotIdx, Nat.add_mod_right]

theorem containsLoop_iff (tbl : GLTokenTable) (q : Nat) (fuel : Nat) :
    ∀ i, ContainsLoop tbl q i fuel = true ↔
      ∃ m < fuel, (tbl (slotIdx (i + m))).hash = q ∧ q ≠ 0
        ∧ ∀ j < m, (tbl (slotIdx (i + j))).hash ≠ 0 ∧ (tbl (slotIdx (i + j))).hash ≠ q := by
  induction fuel with
  | zero => intro i; simp [ContainsLoop]
  | succ fuel ih =>
    intro i
    rw [ContainsLoop]
    by_cases h0 : (tbl (slotIdx i)).hash = 0
    · simp only [h0, if_pos rfl]
      constructor
      · intro h; exact absurd h (by simp)
      · rintro ⟨m, _, hm, hq, hj⟩
        cases m with
        | zero => exact (hq (by simpa [h0] using hm.symm)).elim
        | succ m => exact absurd h0 (hj 0 (Nat.succ_pos _)).1
    · rw [if_neg h0]
      by_cases hq : (tbl (slotIdx i)).hash = q
      · rw [if_pos hq]
        constructor
        · intro _
          exact ⟨0, Nat.succ_pos _, by simpa using hq, fun h => h0 (hq.symm ▸ h), by omega⟩
        · intro _; rfl
      · rw [if_neg hq, ih (i + 1)]
        constructor
        · rintro ⟨m, hm, hmq, hq0, hj⟩
          refine ⟨m + 1, by omega, ?_, hq0, ?_⟩
          · have : i + 1 + m = i + (m + 1) := by omega
            rwa [this] at hmq
          · intro j hj'
            cases j with
            | zero => exact ⟨h0, hq⟩
            | succ j =>
              have : i + 1 + j = i + (j + 1) := by omega
              have h := hj j (by omega)
              rwa [this] at h
        · rintro ⟨m, hm, hmq, hq0, hj⟩
          cases m with
          | zero => exact absurd (by simpa using hmq) hq
          | succ m =>
            refine ⟨m, by omega, ?_, hq0, ?_⟩
            · have : i + 1 + m = i + (m + 1) := by omega
              rwa [this]
            · intro j hj'
              have : i + 1 + j = i + (j + 1) := by omega
              rw [this]
              exact hj (j + 1) (by omega)

theorem getTokenLoop_some_iff (tbl : GLArbTable) (q : Nat) (hq : q ≠ 0)
    (fuel : Nat) :
    ∀ i e, GetTokenLoop tbl q i fuel = some e ↔
      ∃ m ≤ fuel, tbl (slotIdx (i + m)) = e ∧ e.hash = q
        ∧ ∀ j < m, (tbl (slotIdx (i + j))).hash ≠ 0 ∧ (tbl (slotIdx (i + j))).hash ≠ q := by
  induction fuel with
  | zero =>
    intro i e
    rw [GetTokenLoop]
    by_cases h : (tbl (slotIdx i)).hash = q
    · simp only [if_pos h]
      constructor
      · rintro ⟨rfl⟩
        exact ⟨0, le_refl _, by simp, h, by omega⟩
      · rintro ⟨m, hm, hme, heq, _⟩
        interval_cases m
        simp only [Nat.add_zero] at hme
        simp [hme]
    · simp only [if_neg h]
      constructor
      · intro hx; exact absurd hx (by simp)
      · rintro ⟨m, hm, hme, hee, _⟩
        interval_cases m
        simp only [Nat.add_zero] at hme
        exact absurd (hme ▸ hee) h
  | succ fuel ih =>
    intro i e
    rw [GetTokenLoop]
    by_cases h0 : (tbl (slotIdx i)).hash = 0
    · have hne : (tbl (slotIdx i)).hash ≠ q := fun hc => hq (hc.symm.trans h0)
      rw [if_pos h0, if_neg hne]
      constructor
      · intro hx
        exact absurd hx (by simp)
      · rintro ⟨m, hm, hme, hee, hj⟩
        cases m with
        | zero =>
          simp only [Nat.add_zero] at hme
          exact absurd (by rw [hme]; exact hee) hne
        | succ m => exact absurd h0 (hj 0 (Nat.succ_pos _)).1
    · by_cases hmatch : (tbl (slotIdx i)).hash = q
      · rw [if_neg h0, if_pos hmatch]
        constructor
        · rintro ⟨rfl⟩
          exact ⟨0, Nat.zero_le _, by simp, hmatch, by omega⟩
        · rintro ⟨m, hm, hme, hee, hj⟩
          cases m with
          | zero => simp only [Nat.add_zero] at hme; simp [hme]
          | succ m => exact absurd hmatch (hj 0 (Nat.succ_pos _)).2
      · rw [if_neg h0, if_neg hmatch, ih (i + 1) e]
        constructor
        · rintro ⟨m, hm, hme, hee, hj⟩
          refine ⟨m + 1, by omega, ?_, hee, ?_⟩
          · have : i + 1 + m = i + (m + 1) := by omega
            rwa [this] at hme
          · intro j hj'
            cases j with
            | zero => exact ⟨h0, hmatch⟩
            | succ j =>
              have : i + 1 + j = i + (j + 1) := by omega
              have h := hj j (by omega)
              rwa [this] at h
        · rintro ⟨m, hm, hme, hee, hj⟩
          cases m with
          | zero =>
            simp only [Nat.add_zero] at hme
            exact absurd (hme ▸ hee) hmatch
          | succ m =>
            refine ⟨m, by omega, ?_, hee, ?_⟩
            · have : i + 1 + m = i + (m + 1) := by omega
              rwa [this]
            · intro j hj'
              have : i + 1 + j = i + (j + 1) := by omega
              rw [this]
              exact hj (j + 1) (by omega)

theorem findFreeSlotLoop_eq_some (occupied : Fin TOKEN_HASH_SIZE → Bool) (k : Nat) :
    ∀ i fuel, k < fuel → occupied (slotIdx (i + k)) = false →
    (∀ j < k, occupied (slotIdx (i + j)) = true) →
    FindFreeSlotLoop occupied i fuel = some (slotIdx (i + k)) := by
  induction k with
  | zero =>
    intro i fuel hk hfree _
    cases fuel with
    | zero => omega
    | succ fuel =>
      rw [FindFreeSlotLoop]
      simp only [Nat.add_zero] at hfree
      rw [hfree]
      simp
  | succ k ih =>
    intro i fuel hk hfree hocc
    cases fuel with
    | zero => omega
    | succ fuel =>
      rw [FindFreeSlotLoop]
      have h0 : occupied (slotIdx i) = true := by
        simpa using hocc 0 (Nat.succ_pos _)
      rw [h0]
      simp only [if_pos rfl]
      have heq : i + 1 + k = i + (k + 1) := by omega
      have := ih (i + 1) fuel (by omega) (by rwa [heq]) (fun j hj => by
        have h := hocc (j + 1) (by omega)
        have : i + 1 + j = i + (j + 1) := by omega
        rwa [this])
      rwa [heq] at this

theorem findFreeSlotLoop_eq_none (occupied : Fin TOKEN_HASH_SIZE → Bool)
    (h : ∀ j, occupied j = true) : ∀ fuel i, FindFreeSlotLoop occupied i fuel = none := by
  intro fuel
  induction fuel with
  | zero => intro i; rfl
  | succ fuel ih => intro i; rw [FindFreeSlotLoop, h (slotIdx i)]; simpa using ih (i + 1)

theorem findFreeSlotLoop_free (occupied : Fin TOKEN_HASH_SIZE → Bool) :
    ∀ fuel i j, FindFreeSlotLoop occupied i fuel = some j → occupied j = false := by
  intro fuel
  induction fuel with
  | zero => intro i j h; exact absurd h (by simp [FindFreeSlotLoop])
  | succ fuel ih =>
    intro i j h
    rw [FindFreeSlotLoop] at h
    by_cases hocc : occupied (slotIdx i) = true
    · rw [hocc] at h
      exact ih (i + 1) j (by simpa using h)
    · rw [eq_false_of_ne_true hocc] at h
      simp only [Bool.false_eq_true, if_false] at h
      obtain rfl : slotIdx i = j := by simpa using h
      exact eq_false_of_ne_true hocc

/-- C2: `Contains` and `GetToken` compare only the stored 32-bit hash against
the query hash: `Contains` is true iff some probe position within capacity
holds the query hash with no empty or earlier-matching slot before it (so it
is false for query hash 0, reached empty slots, or a completed probe cycle);
`GetToken` returns exactly the first such slot's entry; and two tokens with
equal hashes — regardless of their text — give the same `Contains` answer. -/
theorem claimC2_theorem (tbl : GLTokenTable) (atbl : GLArbTable)
    (t t' : GLToken) (q : Nat) (hts : t'.hash = t.hash) :
    (Contains tbl t = true ↔
      ∃ k < TOKEN_HASH_SIZE,
        (tbl (slotIdx (t.hash % TOKEN_HASH_SIZE + k))).hash = t.hash ∧ t.hash ≠ 0
        ∧ ∀ j < k, (tbl (slotIdx (t.hash % TOKEN_HASH_SIZE + j))).hash ≠ 0
            ∧ (tbl (slotIdx (t.hash % TOKEN_HASH_SIZE + j))).hash ≠ t.hash)
    ∧ Contains tbl t' = Contains tbl t
    ∧ ∀ e, GetToken atbl q = some e ↔
        q ≠ 0 ∧ ∃ k < TOKEN_HASH_SIZE,
          atbl (slotIdx (q % TOKEN_HASH_SIZE + k)) = e ∧ e.hash = q
          ∧ ∀ j < k, (atbl (slotIdx (q % TOKEN_HASH_SIZE + j))).hash ≠ 0
              ∧ (atbl (slotIdx (q % TOKEN_HASH_SIZE + j))).hash ≠ q := by
  refine ⟨?_, ?_, ?_⟩
  · rw [Contains, and_mask_eq_mod]
    exact containsLoop_iff tbl t.hash TOKEN_HASH_SIZE _
  · rw [Contains, Contains, hts]
  · intro e
    by_cases hq0 : q = 0
    · subst hq0
      rw [GetToken, if_pos rfl]
      simp
    · rw [GetToken, if_neg hq0, and_mask_eq_mod,
        getTokenLoop_some_iff atbl q hq0 TOKEN_HASH_SIZE]
      constructor
      · rintro ⟨m, hm, hme, hee, hj⟩
        refine ⟨hq0, ?_⟩
        rcases Nat.lt_or_ge m TOKEN_HASH_SIZE with hlt | hge
        · exact ⟨m, hlt, hme, hee, hj⟩
        · obtain rfl : m = TOKEN_HASH_SIZE := by omega
          rw [slotIdx_add_size] at hme
          have h0 := hj 0 (by norm_num [TOKEN_HASH_SIZE])
          simp only [Nat.add_zero] at h0
          exact absurd (by rw [hme]; exact hee) h0.2
      · rintro ⟨_, k, hk, hke, hee, hj⟩
        exact ⟨k, le_of_lt hk, hke, hee, hj⟩

/-- Witness for C2: in a table holding one entry hashed like
`GL_MAJOR_VERSION`, the lookup of the distinct text `glBogus` forced to the
same hash succeeds identically — membership ignores the symbol text. -/
theorem claimC2_witness :
    (Contains
        (Function.update emptyGLTokenTable
          (slotIdx (GetStringHash "GL_MAJOR_VERSION".data % TOKEN_HASH_SIZE))
          { value := "GL_MAJOR_VERSION".data, hash := GetStringHash "GL_MAJOR_VERSION".data })
        { value := "glBogus".data, hash := GetStringHash "GL_MAJOR_VERSION".data }
      = Contains
        (Function.update emptyGLTokenTable
          (slotIdx (GetStringHash "GL_MAJOR_VERSION".data % TOKEN_HASH_SIZE))
          { value := "GL_MAJOR_VERSION".data, hash := GetStringHash "GL_MAJOR_VERSION".data })
        { value := "GL_MAJOR_VERSION".data, hash := GetStringHash "GL_MAJOR_VERSION".data })
    ∧ "glBogus".data ≠ "GL_MAJOR_VERSION".data :=
  ⟨(claimC2_theorem
      (Function.update emptyGLTokenTable
        (slotIdx (GetStringHash "GL_MAJOR_VERSION".data % TOKEN_HASH_SIZE))
        { value := "GL_MAJOR_VERSION".data, hash := GetStringHash "GL_MAJOR_VERSION".data })
      emptyGLArbTable
      { value := "GL_MAJOR_VERSION".data, hash := GetStringHash "GL_MAJOR_VERSION".data }
      { value := "glBogus".data, hash := GetStringHash "GL_MAJOR_VERSION".data }
      0 rfl).2.1,
   by decide⟩

/-- C3: an insert into the 8192-slot table probes from
`hash & (capacity-1)` forward with wraparound over occupied (non-zero hash)
slots for at most `capacity` steps, writes the entry into the first empty
slot found, and — when every slot is occupied — drops the insert leaving the
table unchanged; the `GLToken` overload's return value is the constant 0
(never an error), and the `GLArbToken` overload likewise leaves the table
unchanged on a dropped insert (returning the NULL slot pointer). -/
theorem claimC3_theorem (tbl : GLTokenTable) (t : GLToken)
    (atbl : GLArbTable) (e : GLArbToken) :
    t.hash &&& (TOKEN_HASH_SIZE - 1) = t.hash % TOKEN_HASH_SIZE
    ∧ (∀ k < TOKEN_HASH_SIZE,
        (tbl (slotIdx (t.hash % TOKEN_HASH_SIZE + k))).hash = 0 →
        (∀ j < k, (tbl (slotIdx (t.hash % TOKEN_HASH_SIZE + j))).hash ≠ 0) →
        AddToken tbl t =
          (Function.update tbl (slotIdx (t.hash % TOKEN_HASH_SIZE + k)) t, 0))
    ∧ ((∀ j, (tbl j).hash ≠ 0) → AddToken tbl t = (tbl, 0))
    ∧ (AddToken tbl t).2 = 0
    ∧ ((∀ j, (atbl j).hash ≠ 0) → AddArbToken atbl e = (atbl, none)) := by
  refine ⟨and_mask_eq_mod t.hash, ?_, ?_, ?_, ?_⟩
  · intro k hk hfree hocc
    rw [AddToken, and_mask_eq_mod,
      findFreeSlotLoop_eq_some _ k _ TOKEN_HASH_SIZE hk (by simp [hfree])
        (fun j hj => by simp [hocc j hj])]
  · intro h
    rw [AddToken, findFreeSlotLoop_eq_none _ (fun j => by simp [h j])]
  · rcases h : FindFreeSlotLoop (fun j => decide ((tbl j).hash ≠ 0))
        (t.hash &&& (TOKEN_HASH_SIZE - 1)) TOKEN_HASH_SIZE with _ | j
    · rw [AddToken, h]
    · rw [AddToken, h]
  · intro h
    rw [AddArbToken, findFreeSlotLoop_eq_none _ (fun j => by simp [h j])]

/-- Witness for C3 at concrete tables: inserting `glClear` into the empty
table writes the probe-start slot, inserting into a fully occupied table
leaves it unchanged with return value 0 (`GLToken`) or NULL (`GLArbToken`). -/
theorem claimC3_witness :
    AddToken emptyGLTokenTable
        { value := "glClear".data, hash := GetStringHash "glClear".data }
      = (Function.update emptyGLTokenTable
          (slotIdx (GetStringHash "glClear".data % TOKEN_HASH_SIZE + 0))
          { value := "glClear".data, hash := GetStringHash "glClear".data }, 0)
    ∧ AddToken (fun _ => { value := [], hash := 1 })
        { value := "glClear".data, hash := GetStringHash "glClear".data }
      = ((fun _ => { value := [], hash := 1 }), 0)
    ∧ AddArbToken (fun _ => { emptyGLArbToken with hash := 1 }) emptyGLArbToken
      = ((fun _ => { emptyGLArbToken with hash := 1 }), none) :=
  ⟨(claimC3_theorem emptyGLTokenTable
      { value := "glClear".data, hash := GetStringHash "glClear".data }
      emptyGLArbTable emptyGLArbToken).2.1 0 (by decide) (by decide)
      (fun j hj => absurd hj (by omega)),
   (claimC3_theorem (fun _ => { value := [], hash := 1 })
      { value := "glClear".data, hash := GetStringHash "glClear".data }
      emptyGLArbTable emptyGLArbToken).2.2.1 (fun _ => by decide),
   (claimC3_theorem emptyGLTokenTable
      { value := "glClear".data, hash := GetStringHash "glClear".data }
      (fun _ => { emptyGLArbToken with hash := 1 }) emptyGLArbToken).2.2.2.2
      (fun _ => by decide)⟩

/-! ### Sorting lemmas and claim C5 -/

theorem comparerLE_iff (a b : GLToken) : comparerLE a b ↔ b.hash ≤ a.hash := by
  rw [comparerLE, TokenComparer]
  rcases Nat.lt_trichotomy a.hash b.hash with h | h | h
  · rw [if_neg (by omega), if_pos h]
    constructor
    · intro hc; exact absurd hc (by norm_num)
    · intro hc; omega
  · rw [if_neg (by omega), if_neg (by omega)]
    constructor
    · intro _; omega
    · intro _; norm_num
  · rw [if_pos h]
    constructor
    · intro _; omega
    · intro _; norm_num

theorem pairwise_comparerLE_iff (l : List GLToken) :
    l.Pairwise comparerLE ↔ l.Pairwise (fun a b => b.hash ≤ a.hash) := by
  constructor
  · exact fun h => h.imp (fun hab => (comparerLE_iff _ _).1 hab)
  · exact fun h => h.imp (fun hab => (comparerLE_iff _ _).2 hab)

theorem insertDesc_perm (t : GLToken) (l : List GLToken) :
    (InsertDesc t l).Perm (t :: l) := by
  induction l with
  | nil => rfl
  | cons x xs ih =>
    rw [InsertDesc]
    by_cases h : x.hash ≤ t.hash
    · rw [if_pos h]
    · rw [if_neg h]
      exact ((ih.cons x).trans (List.Perm.swap t x xs))

theorem insertDesc_sorted (t : GLToken) (l : List GLToken)
    (hl : l.Pairwise (fun a b => b.hash ≤ a.hash)) :
    (InsertDesc t l).Pairwise (fun a b => b.hash ≤ a.hash) := by
  induction l with
  | nil => simp [InsertDesc]
  | cons x xs ih =>
    rw [InsertDesc]
    rw [List.pairwise_cons] at hl
    by_cases h : x.hash ≤ t.hash
    · rw [if_pos h]
      refine List.Pairwise.cons ?_ (List.Pairwise.cons hl.1 hl.2)
      intro b hb
      rcases List.mem_cons.1 hb with rfl | hb
      · exact h
      · exact le_trans (hl.1 b hb) h
    · rw [if_neg h]
      refine List.Pairwise.cons ?_ (ih hl.2)
      intro b hb
      have := (insertDesc_perm t xs).mem_iff.1 hb
      rcases List.mem_cons.1 this with rfl | hb'
      · omega
      · exact hl.1 b hb'

theorem sortTokensDesc_perm (l : List GLToken) : (SortTokensDesc l).Perm l := by
  induction l with
  | nil => rfl
  | cons x xs ih =>
    exact (insertDesc_perm x (SortTokensDesc xs)).trans (ih.cons x)

theorem sortTokensDesc_sorted (l : List GLToken) :
    (SortTokensDesc l).Pairwise (fun a b => b.hash ≤ a.hash) := by
  induction l with
  | nil => simp [SortTokensDesc]
  | cons x xs ih => exact insertDesc_sorted x _ ih

theorem sortTokensDesc_qsortPost (l : List GLToken) :
    QsortPost l (SortTokensDesc l) :=
  ⟨sortTokensDesc_perm l, (pairwise_comparerLE_iff _).2 (sortTokensDesc_sorted l)⟩

/-- Two comparer-sorted permutations of the same entries coincide, provided
entries with equal hashes are equal entries. -/
theorem sorted_perm_unique :
    ∀ (l1 l2 : List GLToken), l1.Perm l2 →
      l1.Pairwise (fun a b => b.hash ≤ a.hash) →
      l2.Pairwise (fun a b => b.hash ≤ a.hash) →
      (∀ a ∈ l1, ∀ b ∈ l1, a.hash = b.hash → a = b) →
      l1 = l2 := by
  intro l1
  induction l1 with
  | nil => intro l2 hperm _ _ _; exact (hperm.nil_eq).symm ▸ rfl
  | cons a as ih =>
    intro l2 hperm h1 h2 hinj
    cases l2 with
    | nil => exact absurd hperm.symm.nil_eq (by simp)
    | cons b bs =>
      rw [List.pairwise_cons] at h1 h2
      have hab : a = b := by
        have hamem : a ∈ b :: bs := hperm.mem_iff.1 (by simp)
        have hbmem : b ∈ a :: as := hperm.symm.mem_iff.1 (by simp)
        have hle1 : a.hash ≤ b.hash := by
          rcases List.mem_cons.1 hamem with rfl | h
          · exact le_refl _
          · exact h2.1 a h
        have hle2 : b.hash ≤ a.hash := by
          rcases List.mem_cons.1 hbmem with rfl | h
          · exact le_refl _
          · exact h1.1 b h
        exact hinj a (by simp) b (by simpa using hbmem) (by omega)
      subst hab
      have htail := hperm.cons_inv
      rw [ih bs htail h1.2 h2.2
        (fun x hx y hy h => hinj x (by simp [hx]) y (by simp [hy]) h)]

/-- In a comparer-sorted list, a zero-hash (empty) entry is never followed by
anything but zero-hash entries. -/
theorem sorted_zeros_tail (l : List GLToken)
    (hs : l.Pairwise (fun a b => b.hash ≤ a.hash)) :
    ∀ i j (hi : i < l.length) (hj : j < l.length), i ≤ j →
      (l.get ⟨i, hi⟩).hash = 0 → (l.get ⟨j, hj⟩).hash = 0 := by
  intro i j hi hj hij h0
  rcases Nat.eq_or_lt_of_le hij with rfl | hlt
  · exact h0
  · have := (List.pairwise_iff_get.1 hs) ⟨i, hi⟩ ⟨j, hj⟩ hlt
    omega

/-- C5: the emitter's ordering step.  For any two 8192-slot result-set
backing arrays holding the same entries (in any slot arrangement arising from
any insertion order), any `qsort` outcomes (comparer-sorted permutations of
the arrays) are one and the same list — the order is a pure function of the
stored hash values — and in that sorted list every populated (non-zero hash)
entry precedes every empty (hash 0) slot.  The hash-injectivity hypothesis
holds for the result sets because an entry is only inserted when `Contains`
is false and all empty slots are identical. -/
theorem claimC5_theorem (t1 t2 : GLTokenTable) (l1 l2 : List GLToken)
    (h1 : QsortPost (TableToList t1) l1) (h2 : QsortPost (TableToList t2) l2)
    (hperm : (TableToList t1).Perm (TableToList t2))
    (hinj : ∀ a ∈ TableToList t1, ∀ b ∈ TableToList t1, a.hash = b.hash → a = b) :
    l1 = l2
    ∧ (∀ i j (hi : i < l1.length) (hj : j < l1.length), i ≤ j →
        (l1.get ⟨i, hi⟩).hash = 0 → (l1.get ⟨j, hj⟩).hash = 0)
    ∧ QsortPost (TableToList t1) (SortTokensDesc (TableToList t1)) := by
  have hs1 := (pairwise_comparerLE_iff _).1 h1.2
  have hs2 := (pairwise_comparerLE_iff _).1 h2.2
  refine ⟨?_, sorted_zeros_tail l1 hs1, sortTokensDesc_qsortPost _⟩
  refine sorted_perm_unique l1 l2 (h1.1.trans (hperm.trans h2.1.symm)) hs1 hs2 ?_
  intro a ha b hb h
  exact hinj a (h1.1.subset ha) b (h1.1.subset hb) h

theorem tableToList_empty :
    TableToList emptyGLTokenTable = List.replicate TOKEN_HASH_SIZE emptyGLToken := by
  rw [TableToList]
  have : (List.finRange TOKEN_HASH_SIZE).map emptyGLTokenTable
      = (List.finRange TOKEN_HASH_SIZE).map (fun _ => emptyGLToken) := rfl
  rw [this, List.map_const', List.length_finRange]

/-- Witness for C5: both tables empty, both sorted lists produced by
`SortTokensDesc`; the hypotheses hold because all 8192 slots carry the
identical zero entry. -/
theorem claimC5_witness :
    SortTokensDesc (TableToList emptyGLTokenTable)
        = SortTokensDesc (TableToList emptyGLTokenTable)
    ∧ (∀ i j (hi : i < (SortTokensDesc (TableToList emptyGLTokenTable)).length)
        (hj : j < (SortTokensDesc (TableToList emptyGLTokenTable)).length), i ≤ j →
        ((SortTokensDesc (TableToList emptyGLTokenTable)).get ⟨i, hi⟩).hash = 0 →
        ((SortTokensDesc (TableToList emptyGLTokenTable)).get ⟨j, hj⟩).hash = 0)
    ∧ QsortPost (TableToList emptyGLTokenTable)
        (SortTokensDesc (TableToList emptyGLTokenTable)) :=
  claimC5_theorem emptyGLTokenTable emptyGLTokenTable
    (SortTokensDesc (TableToList emptyGLTokenTable))
    (SortTokensDesc (TableToList emptyGLTokenTable))
    (sortTokensDesc_qsortPost _) (sortTokensDesc_qsortPost _)
    (List.Perm.refl _)
    (fun a ha b hb _ => by
      rw [tableToList_empty] at ha hb
      rw [List.eq_of_mem_replicate ha, List.eq_of_mem_replicate hb])

/-! ### Scanner-step lemmas and claim C8 -/

theorem startsWith_gl_head (v : List Char) (atStart : List Char)
    (h : isFunctionCandidate v atStart = true) : ∃ rest, v = 'g' :: rest := by
  rcases v with _ | ⟨c, rest⟩
  · exact absurd h (by simp [isFunctionCandidate, StartsWith])
  · rw [isFunctionCandidate, StartsWith, overlapEq] at h
    simp only [Bool.and_eq_true, beq_iff_eq] at h
    exact ⟨rest, by rw [h.1.2.1]⟩

/-- A scanned token is never both a function-name candidate and a macro-name
candidate: the first requires a lowercase `g`, the second an uppercase `G`. -/
theorem candidates_exclusive (v : List Char) (atStart : List Char)
    (h : isFunctionCandidate v atStart = true) : isDefineCandidate v = false := by
  obtain ⟨rest, rfl⟩ := startsWith_gl_head v atStart h
  rw [isDefineCandidate, StartsWith, overlapEq]
  simp

/-- C8 amended: one scanned occurrence of a candidate identifier whose hash
is not in its result set and which `IsKnownOrIgnoredToken` rejects (not in
the registry, not ignored) makes the scanner append exactly one warning
naming that token's text, leave both result sets and both counts unchanged,
and continue scanning the rest of the buffer; since rejected tokens are never
recorded, an identifier occurring several times warns once per occurrence. -/
theorem claimC8_theorem (arb : GLArbTable) (ignores : List (List Char))
    (st : ScanState) (fuel : Nat) (c : Char) (cs : List Char)
    (hrej : IsKnownOrIgnoredToken arb (ParseToken (c :: cs)).1 ignores = false) :
    (isFunctionCandidate (ParseToken (c :: cs)).1.value
        ((ParseToken (c :: cs)).1.value ++ (ParseToken (c :: cs)).2) = true →
      Contains st.functionsHash (ParseToken (c :: cs)).1 = false →
      ParseFileLoop arb ignores (fuel + 1) (c :: cs) st
        = ParseFileLoop arb ignores fuel (ParseToken (c :: cs)).2
            { st with warnings := st.warnings ++ [(ParseToken (c :: cs)).1.value] })
    ∧ (isDefineCandidate (ParseToken (c :: cs)).1.value = true →
      isFunctionCandidate (ParseToken (c :: cs)).1.value
        ((ParseToken (c :: cs)).1.value ++ (ParseToken (c :: cs)).2) = false →
      Contains st.definesHash (ParseToken (c :: cs)).1 = false →
      ParseFileLoop arb ignores (fuel + 1) (c :: cs) st
        = ParseFileLoop arb ignores fuel (ParseToken (c :: cs)).2
            { st with warnings := st.warnings ++ [(ParseToken (c :: cs)).1.value] }) := by
  have hunfold : ParseFileLoop arb ignores (fuel + 1) (c :: cs) st
      = ParseFileLoop arb ignores fuel (ParseToken (c :: cs)).2
          (scanTokenStep arb ignores st (ParseToken (c :: cs)).1
            ((ParseToken (c :: cs)).1.value ++ (ParseToken (c :: cs)).2)) := rfl
  constructor
  · intro hfc hnc
    rw [hunfold]
    congr 1
    simp [scanTokenStep, hfc, hnc, hrej, candidates_exclusive _ _ hfc]
  · intro hdc hfc hnc
    rw [hunfold]
    congr 1
    simp [scanTokenStep, hfc, hdc, hnc, hrej]

/-- C8 fails as stated: the source text `glAbc glAbc` contains the candidate
identifier `glAbc` (absent from the registry and the empty ignore list), and
the scan emits two warnings naming it, not exactly one — rejected tokens are
never recorded, so every further occurrence warns again. -/
theorem claimC8_counterexample :
    (ParseFile emptyGLArbTable [] "glAbc glAbc".data
        { functionsHash := emptyGLTokenTable, functionCount := 0,
          definesHash := emptyGLTokenTable, definesCount := 0,
          warnings := [] }).warnings = ["glAbc".data, "glAbc".data]
    ∧ GetToken emptyGLArbTable (GetStringHash "glAbc".data) = none
    ∧ ¬ (["glAbc".data, "glAbc".data].length = 1) := by
  refine ⟨by decide, by decide, by decide⟩

/-- Witness for C8: scanning the single rejected occurrence `glAbc` appends
exactly one warning naming it and continues on the rest of the buffer. -/
theorem claimC8_witness :
    ParseFileLoop emptyGLArbTable [] (10 + 1) ('g' :: "lAbc".data)
        { functionsHash := emptyGLTokenTable, functionCount := 0,
          definesHash := emptyGLTokenTable, definesCount := 0, warnings := [] }
      = ParseFileLoop emptyGLArbTable [] 10 (ParseToken ('g' :: "lAbc".data)).2
          { functionsHash := emptyGLTokenTable, functionCount := 0,
            definesHash := emptyGLTokenTable, definesCount := 0,
            warnings := [] ++ [(ParseToken ('g' :: "lAbc".data)).1.value] } :=
  (claimC8_theorem emptyGLArbTable []
    { functionsHash := emptyGLTokenTable, functionCount := 0,
      definesHash := emptyGLTokenTable, definesCount := 0, warnings := [] }
    10 'g' "lAbc".data (by decide)).1 (by decide) (by decide)

/-! ### Output determinism and claim C6 -/

/-- C6 fails as stated: with byte-identical registry files, source files and
ignore list (and identical prefix and flags), two generation runs that
observe different last-write timestamps of the previous output file emit
different bytes — the `// @GENERATED: %llu` line renders
`Settings->WriteTimestamp`, which is not among the claimed inputs. -/
theorem claimC6_counterexample :
    GenerateOutput
        { registryFiles := ["#define GL_X 1\n".data], inputFiles := ["GL_X\n".data],
          ignores := [], pfx := [], boilerplate := false, silent := false,
          writeTimestamp := 10, outputPath := [] }
      ≠ GenerateOutput
        { registryFiles := ["#define GL_X 1\n".data], inputFiles := ["GL_X\n".data],
          ignores := [], pfx := [], boilerplate := false, silent := false,
          writeTimestamp := 20, outputPath := [] } := by
  intro h
  have e1 : GenerateChunks
      { registryFiles := ["#define GL_X 1\n".data], inputFiles := ["GL_X\n".data],
        ignores := [], pfx := [], boilerplate := false, silent := false,
        writeTimestamp := 10, outputPath := [] }
      = HeaderChunk 10
        :: GenerateChunksTail ["#define GL_X 1\n".data] ["GL_X\n".data]
            [] [] false := rfl
  have e2 : GenerateChunks
      { registryFiles := ["#define GL_X 1\n".data], inputFiles := ["GL_X\n".data],
        ignores := [], pfx := [], boilerplate := false, silent := false,
        writeTimestamp := 20, outputPath := [] }
      = HeaderChunk 20
        :: GenerateChunksTail ["#define GL_X 1\n".data] ["GL_X\n".data]
            [] [] false := rfl
  rw [GenerateOutput, GenerateOutput, e1, e2, List.flatten_cons, List.flatten_cons] at h
  have := List.append_inj_left h (by decide)
  exact absurd this (by decide)

/-- C6 amended: the emitted bytes are a pure function of the registry file
contents, the source file contents, the ignore list, the prefix, the
boilerplate flag, and the recorded write timestamp of the previous output —
two runs agreeing on all six (whatever their `silent` flag or output path)
produce byte-identical output files. -/
theorem claimC6_theorem (s1 s2 : GLSettings)
    (hreg : s1.registryFiles = s2.registryFiles)
    (hinp : s1.inputFiles = s2.inputFiles)
    (hign : s1.ignores = s2.ignores)
    (hpfx : s1.pfx = s2.pfx)
    (hbp : s1.boilerplate = s2.boilerplate)
    (hts : s1.writeTimestamp = s2.writeTimestamp) :
    GenerateOutput s1 = GenerateOutput s2 := by
  cases s1
  cases s2
  simp only at hreg hinp hign hpfx hbp hts
  subst hreg hinp hign hpfx hbp hts
  rfl

/-- Witness for C6 at two concrete runs differing only in the `silent` flag
and the output path. -/
theorem claimC6_witness :
    GenerateOutput
        { registryFiles := ["#define GL_X 1\n".data], inputFiles := ["GL_X\n".data],
          ignores := [], pfx := [], boilerplate := true, silent := false,
          writeTimestamp := 7, outputPath := [] }
      = GenerateOutput
        { registryFiles := ["#define GL_X 1\n".data], inputFiles := ["GL_X\n".data],
          ignores := [], pfx := [], boilerplate := true, silent := true,
          writeTimestamp := 7, outputPath := "other.h".data } :=
  claimC6_theorem _ _ rfl rfl rfl rfl rfl rfl

/-! ### Structure of the emitted output and claim C10 -/

theorem dropWhile_eq_cons_head {p : Char → Bool} :
    ∀ (b : List Char) (c : Char) (t : List Char),
      b.dropWhile p = c :: t → p c = false := by
  intro b
  induction b with
  | nil => intro c t h; exact absurd h (by simp)
  | cons x xs ih =>
    intro c t h
    rw [List.dropWhile_cons] at h
    by_cases hp : p x = true
    · rw [if_pos hp] at h
      exact ih c t h
    · rw [if_neg hp] at h
      obtain ⟨rfl, -⟩ := List.cons.inj h
      exact eq_false_of_ne_true hp

theorem skipToIdentifier_head (buf : List Char) (c : Char) (t : List Char)
    (h : skipToIdentifier buf = c :: t) : IsIdentifier c = true := by
  have := dropWhile_eq_cons_head buf c t h
  rcases hid : IsIdentifier c with _ | _
  · rw [hid] at this
    simp at this
  · rfl

theorem length_dropWhile_le (p : Char → Bool) (l : List Char) :
    (l.dropWhile p).length ≤ l.length := by
  induction l with
  | nil => simp
  | cons x xs ih =>
    rw [List.dropWhile_cons]
    by_cases hp : p x = true
    · rw [if_pos hp]
      exact Nat.le_trans ih (by simp)
    · rw [if_neg hp]

/-- A non-empty token produced by `ParseArbToken` begins with an identifier
character. -/
theorem parseArbToken_value_head (buf : List Char)
    (h : (ParseArbToken buf).1.value ≠ []) :
    ∃ c cs, (ParseArbToken buf).1.value = c :: cs ∧ IsIdentifier c = true := by
  rw [ParseArbToken] at h ⊢
  generalize hb : skipToIdentifier buf = b1 at h ⊢
  rcases b1 with _ | ⟨c, t⟩
  · simp at h
  · have hc := skipToIdentifier_head buf c t hb
    rw [List.takeWhile_cons, if_pos hc] at h ⊢
    generalize List.dropWhile IsIdentifier (c :: t) = r at h ⊢
    rcases r with _ | ⟨c1, rest⟩
    · exact ⟨c, t.takeWhile IsIdentifier, rfl, hc⟩
    · rcases rest with _ | ⟨c2, r2⟩
      · exact ⟨c, t.takeWhile IsIdentifier, rfl, hc⟩
      · by_cases hws : (IsWhitespace c1 && c2 == '*') = true
        · simp only [hws, if_true]
          exact ⟨c, t.takeWhile IsIdentifier ++ [c1, c2], rfl, hc⟩
        · simp only [hws, if_false, Bool.false_eq_true]
          exact ⟨c, t.takeWhile IsIdentifier, rfl, hc⟩

theorem parseArbToken_rest_length_le (b : List Char) :
    (ParseArbToken b).2.length ≤ b.length := by
  rw [ParseArbToken]
  have hskip : (skipToIdentifier b).length ≤ b.length := length_dropWhile_le _ b
  have h2 : (List.dropWhile IsIdentifier (skipToIdentifier b)).length
      ≤ (skipToIdentifier b).length := length_dropWhile_le _ _
  have hb : (List.dropWhile IsIdentifier (skipToIdentifier b)).length ≤ b.length :=
    Nat.le_trans h2 hskip
  generalize List.dropWhile IsIdentifier (skipToIdentifier b) = r at hb ⊢
  rcases r with _ | ⟨c1, rest⟩
  · simpa using hb
  · rcases rest with _ | ⟨c2, r2⟩
    · simpa using hb
    · by_cases hws : (IsWhitespace c1 && c2 == '*') = true
      · simp only [hws, if_true]
        simp only [List.length_cons] at hb
        omega
      · simp only [hws, if_false, Bool.false_eq_true]
        simpa using hb

theorem advanceToEndOfLine_length_le (b : List Char) :
    (AdvanceToEndOfLine b).length ≤ b.length :=
  length_dropWhile_le _ b

theorem take_sub_head (c : Char) (cs rest : List Char) (k : Nat)
    (hk : k ≤ rest.length) :
    ∃ cs', ((c :: cs) ++ rest).take (((c :: cs) ++ rest).length - k) = c :: cs' := by
  have hlen : ((c :: cs) ++ rest).length = cs.length + rest.length + 1 := by
    simp [List.length_append]
  obtain ⟨m, hm⟩ : ∃ m, ((c :: cs) ++ rest).length - k = m + 1 :=
    ⟨((c :: cs) ++ rest).length - k - 1, by omega⟩
  rw [hm, List.cons_append, List.take_succ_cons]
  exact ⟨_, rfl⟩

theorem glapiEntry_line_head (tokValue rest1 : List Char) (c : Char)
    (cs : List Char) (hv : tokValue = c :: cs) :
    ∃ cs', (glapiEntry tokValue rest1).1.line = c :: cs' := by
  subst hv
  rw [glapiEntry]
  have hb : ∀ r3 : List Char, r3.length ≤ rest1.length →
      (AdvanceToEndOfLine ((ParseArbToken ((ParseArbToken r3).2)).2)).length
        ≤ rest1.length := by
    intro r3 h3
    exact Nat.le_trans (advanceToEndOfLine_length_le _)
      (Nat.le_trans (parseArbToken_rest_length_le _)
        (Nat.le_trans (parseArbToken_rest_length_le _) h3))
  have h3 : (if Equal (ParseArbToken rest1).1.value "const".data
      then (ParseArbToken (ParseArbToken rest1).2).2
      else (ParseArbToken rest1).2).length ≤ rest1.length := by
    by_cases hc : Equal (ParseArbToken rest1).1.value "const".data = true
    · rw [if_pos hc]
      exact Nat.le_trans (parseArbToken_rest_length_le _)
        (parseArbToken_rest_length_le _)
    · rw [if_neg hc]
      exact parseArbToken_rest_length_le _
  exact take_sub_head c cs rest1 _ (hb _ h3)

theorem defineEntry_line_head (tokValue rest1 : List Char) (c : Char)
    (cs : List Char) (hv : tokValue = c :: cs) :
    ∃ cs', (defineEntry tokValue rest1).1.line = c :: cs' := by
  subst hv
  rw [defineEntry]
  exact take_sub_head c cs rest1 _
    (Nat.le_trans (advanceToEndOfLine_length_le _) (parseArbToken_rest_length_le _))

theorem addArbToken_slot_cases (tbl : GLArbTable) (e : GLArbToken)
    (i : Fin TOKEN_HASH_SIZE) :
    (AddArbToken tbl e).1 i = tbl i ∨ (AddArbToken tbl e).1 i = e := by
  rw [AddArbToken]
  cases h : FindFreeSlotLoop (fun j => decide ((tbl j).hash ≠ 0))
      (e.hash &&& (TOKEN_HASH_SIZE - 1)) TOKEN_HASH_SIZE with
  | none => exact Or.inl rfl
  | some j =>
    by_cases hij : j = i
    · subst hij
      exact Or.inr (by simp [Function.update_apply])
    · refine Or.inl ?_
      show Function.update tbl j e i = tbl i
      rw [Function.update_apply, if_neg (fun hh => hij hh.symm)]

/-- Every populated entry of a registry-parsed dictionary captures a line
that begins with an identifier character (the first character of the
triggering `GLAPI`/`#define` token). -/
theorem parseRegistryLoop_lineOK :
    ∀ (fuel : Nat) (buf : List Char) (tbl : GLArbTable) (count : Nat),
      (∀ i, (tbl i).hash ≠ 0 →
        ∃ c cs, (tbl i).line = c :: cs ∧ IsIdentifier c = true) →
      ∀ i, (((ParseRegistryLoop fuel buf tbl count).1) i).hash ≠ 0 →
        ∃ c cs, (((ParseRegistryLoop fuel buf tbl count).1) i).line = c :: cs
          ∧ IsIdentifier c = true := by
  intro fuel
  induction fuel with
  | zero => intro buf tbl count hinv; exact hinv
  | succ fuel ih =>
    intro buf tbl count hinv
    cases buf with
    | nil => exact hinv
    | cons b0 brest =>
      have hstep : ∀ (tbl' : GLArbTable) (e : GLArbToken),
          (∃ c cs, e.line = c :: cs ∧ IsIdentifier c = true) →
          (∀ i, (tbl i).hash ≠ 0 →
            ∃ c cs, (tbl i).line = c :: cs ∧ IsIdentifier c = true) →
          tbl' = (AddArbToken tbl e).1 →
          ∀ i, (tbl' i).hash ≠ 0 →
            ∃ c cs, (tbl' i).line = c :: cs ∧ IsIdentifier c = true := by
        rintro tbl' e he hold rfl i hi
        rcases addArbToken_slot_cases tbl e i with hcase | hcase
        · rw [hcase] at hi ⊢
          exact hold i hi
        · rw [hcase]
          exact he
      rw [ParseRegistryLoop]
      by_cases hglapi :
          Equal (ParseArbToken (b0 :: brest)).1.value "GLAPI".data = true
      · simp only [hglapi, if_true]
        have hval : (ParseArbToken (b0 :: brest)).1.value ≠ [] := by
          intro hnil
          rw [Equal, hnil] at hglapi
          simp at hglapi
        obtain ⟨c, cs, hv, hcid⟩ := parseArbToken_value_head _ hval
        cases hget : GetToken tbl
            (glapiEntry (ParseArbToken (b0 :: brest)).1.value
              (ParseArbToken (b0 :: brest)).2).1.hash with
        | some e0 => exact ih _ tbl count hinv
        | none =>
          refine ih _ _ (count + 1) ?_
          refine hstep _ _ ?_ hinv rfl
          obtain ⟨cs', hline⟩ := glapiEntry_line_head _ _ c cs hv
          exact ⟨c, cs', hline, hcid⟩
      · simp only [hglapi, Bool.false_eq_true, if_false]
        by_cases hdef :
            StartsWith (ParseArbToken (b0 :: brest)).1.value "#define".data = true
        · simp only [hdef, if_true]
          have hval : (ParseArbToken (b0 :: brest)).1.value ≠ [] := by
            intro hnil
            rw [StartsWith, hnil] at hdef
            simp at hdef
          obtain ⟨c, cs, hv, hcid⟩ := parseArbToken_value_head _ hval
          cases hget : GetToken tbl
              (defineEntry (ParseArbToken (b0 :: brest)).1.value
                (ParseArbToken (b0 :: brest)).2).1.hash with
          | some e0 => exact ih _ tbl count hinv
          | none =>
            refine ih _ _ (count + 1) ?_
            refine hstep _ _ ?_ hinv rfl
            obtain ⟨cs', hline⟩ := defineEntry_line_head _ _ c cs hv
            exact ⟨c, cs', hline, hcid⟩
        · simp only [hdef, Bool.false_eq_true, if_false]
          exact ih _ tbl count hinv

/-- Entry lookup in a registry-parsed dictionary only ever returns entries
whose captured line begins with an identifier character. -/
theorem parseRegistry_getToken_lineOK (buf : List Char) (q : Nat) (e : GLArbToken)
    (h : GetToken (ParseRegistry buf).1 q = some e) :
    ∃ c cs, e.line = c :: cs ∧ IsIdentifier c = true := by
  have hq : q ≠ 0 := by
    intro h0
    rw [GetToken, if_pos h0] at h
    exact absurd h (by simp)
  rw [GetToken, if_neg hq] at h
  obtain ⟨m, _, hme, hee, _⟩ := (getTokenLoop_some_iff _ q hq _ _ e).1 h
  have hnz : (((ParseRegistry buf).1)
      (slotIdx ((q &&& (TOKEN_HASH_SIZE - 1)) + m))).hash ≠ 0 := by
    rw [hme, hee]
    exact hq
  have hthis := parseRegistryLoop_lineOK buf.length buf emptyGLArbTable 0
    (fun i hi => absurd rfl hi) (slotIdx ((q &&& (TOKEN_HASH_SIZE - 1)) + m)) hnz
  rwa [show (ParseRegistryLoop buf.length buf emptyGLArbTable 0).1
      = (ParseRegistry buf).1 from rfl, hme] at hthis

theorem suffix_flatten_cons (a : List Char) (L : List (List Char))
    (s : List Char) (h : s <:+ L.flatten) : s <:+ (a :: L).flatten := by
  rw [List.flatten_cons]
  exact h.trans (List.suffix_append _ _)

theorem suffix_flatten_append (A L : List (List Char)) (s : List Char)
    (h : s <:+ L.flatten) : s <:+ (A ++ L).flatten := by
  rw [List.flatten_append]
  exact h.trans (List.suffix_append _ _)

theorem endifLine_suffix_finalChunk (pfx : List Char) :
    EndifLine <:+ FinalChunk pfx := by
  refine ⟨"\n  ".data ++ pfx
    ++ "UnloadOpenGL();\n\n  Version->Major = 0;\n  Version->Minor = 0;\n  if (glGetIntegerv)\n  \x7b\n    glGetIntegerv(GL_MAJOR_VERSION, &Version->Major);\n    glGetIntegerv(GL_MINOR_VERSION, &Version->Minor);\n  \x7d\n\x7d\n\n".data, ?_⟩
  rw [FinalChunk]

/-- C10: the generated output always begins with the two include-guard lines;
when boilerplate is enabled the output ends with the closing
`#endif // INCLUDE_OPENGL_GENERATED_H` line; when boilerplate is disabled the
output is exactly the header, baseline, macro lines, spacer, debug-callback
alias and function-pointer typedefs — it ends after the typedef block, and
the chunk closing the include guard is emitted if and only if boilerplate is
enabled, leaving the guard unbalanced otherwise. -/
theorem claimC10_theorem (s : GLSettings) :
    ("#ifndef INCLUDE_OPENGL_GENERATED_H\n#define INCLUDE_OPENGL_GENERATED_H\n").data
      <+: GenerateOutput s
    ∧ (s.boilerplate = true → EndifLine <:+ GenerateOutput s)
    ∧ (s.boilerplate = false → GenerateOutput s
        = HeaderChunk s.writeTimestamp
          ++ (BaselineChunk
          ++ ((DefinesChunks (ParseRegistry (ReadMultiFiles s.registryFiles)).1
                (SortTokensDesc (TableToList (ScanInputs
                  (ParseRegistry (ReadMultiFiles s.registryFiles)).1
                  s.ignores s.inputFiles).definesHash))
                (ScanInputs (ParseRegistry (ReadMultiFiles s.registryFiles)).1
                  s.ignores s.inputFiles).definesCount).flatten
          ++ (SpacerChunk
          ++ (DebugProcChunk
          ++ (FunctionTypedefChunks (ParseRegistry (ReadMultiFiles s.registryFiles)).1
                (SortTokensDesc (TableToList (ScanInputs
                  (ParseRegistry (ReadMultiFiles s.registryFiles)).1
                  s.ignores s.inputFiles).functionsHash))
                (ScanInputs (ParseRegistry (ReadMultiFiles s.registryFiles)).1
                  s.ignores s.inputFiles).functionCount).flatten)))))
    ∧ (FinalChunk s.pfx ∈ GenerateChunks s ↔ s.boilerplate = true) := by
  have hsplit : ("#ifndef INCLUDE_OPENGL_GENERATED_H\n#define INCLUDE_OPENGL_GENERATED_H\n\n// NOTE: This file is generated automatically. Do not edit.\n// @GENERATED: ").data
      = ("#ifndef INCLUDE_OPENGL_GENERATED_H\n#define INCLUDE_OPENGL_GENERATED_H\n").data
        ++ ("\n// NOTE: This file is generated automatically. Do not edit.\n// @GENERATED: ").data := by
    decide
  have houtput : GenerateOutput s = HeaderChunk s.writeTimestamp
      ++ (GenerateChunksTail s.registryFiles s.inputFiles s.ignores s.pfx
          s.boilerplate).flatten := by
    rw [GenerateOutput, GenerateChunks, List.flatten_cons]
  refine ⟨?_, ?_, ?_, ?_⟩
  · rw [houtput, HeaderChunk, hsplit]
    refine ⟨("\n// NOTE: This file is generated automatically. Do not edit.\n// @GENERATED: ").data
      ++ (Nat.repr s.writeTimestamp).data ++ "\n\n".data
      ++ (GenerateChunksTail s.registryFiles s.inputFiles s.ignores s.pfx
          s.boilerplate).flatten, ?_⟩
    simp [List.append_assoc]
  · intro hbp
    rw [houtput, GenerateChunksTail]
    simp only [hbp, if_true]
    refine List.IsSuffix.trans ?_ (List.suffix_append _ _)
    refine suffix_flatten_append _ _ _ ?_
    refine suffix_flatten_append _ _ _ ?_
    simpa using endifLine_suffix_finalChunk s.pfx
  · intro hbp
    rw [houtput, GenerateChunksTail]
    simp only [hbp, Bool.false_eq_true, if_false]
    simp [List.flatten_append, List.append_assoc]
  · constructor
    · intro hmem
      rcases hbp : s.boilerplate with _ | _
      · exfalso
        rw [GenerateChunks, GenerateChunksTail] at hmem
        simp only [hbp, Bool.false_eq_true, if_false] at hmem
        have hF : ∃ z, FinalChunk s.pfx = '\n' :: ' ' :: z := ⟨_, rfl⟩
        obtain ⟨z, hFz⟩ := hF
        have hheader : ∀ h : FinalChunk s.pfx = HeaderChunk s.writeTimestamp, False := by
          intro h
          have hw : ∃ w, HeaderChunk s.writeTimestamp = '#' :: w := ⟨_, rfl⟩
          obtain ⟨w, hw⟩ := hw
          rw [hFz, hw] at h
          exact absurd (List.cons.inj h).1 (by decide)
        have hbase : ∀ h : FinalChunk s.pfx = BaselineChunk, False := by
          intro h
          have hw : ∃ w, BaselineChunk = '#' :: w := ⟨_, rfl⟩
          obtain ⟨w, hw⟩ := hw
          rw [hFz, hw] at h
          exact absurd (List.cons.inj h).1 (by decide)
        have hspacer : ∀ h : FinalChunk s.pfx = SpacerChunk, False := by
          intro h
          rw [hFz] at h
          obtain ⟨-, h2⟩ := List.cons.inj h
          exact absurd (List.cons.inj h2).1 (by decide)
        have hdebug : ∀ h : FinalChunk s.pfx = DebugProcChunk, False := by
          intro h
          have hw : ∃ w, DebugProcChunk = 't' :: w := ⟨_, rfl⟩
          obtain ⟨w, hw⟩ := hw
          rw [hFz, hw] at h
          exact absurd (List.cons.inj h).1 (by decide)
        rcases List.mem_cons.1 hmem with h | hmem
        · exact hheader h
        rcases List.mem_append.1 hmem with hmem | hnil2
        swap
        · exact absurd hnil2 (List.not_mem_nil _)
        rcases List.mem_append.1 hmem with hmem | ht
        swap
        · rw [FunctionTypedefChunks] at ht
          obtain ⟨t, -, htm⟩ := List.mem_filterMap.1 ht
          obtain ⟨e, he, hde⟩ := Option.map_eq_some'.1 htm
          have hw : ∃ w, TypedefChunk e = 't' :: w := ⟨_, rfl⟩
          obtain ⟨w, hw⟩ := hw
          rw [hw, hFz] at hde
          exact absurd (List.cons.inj hde).1 (by decide)
        rcases List.mem_append.1 hmem with hmem | hsp
        swap
        · rcases List.mem_cons.1 hsp with h | hsp
          · exact hspacer h
          · rcases List.mem_cons.1 hsp with h | hsp
            · exact hdebug h
            · exact absurd hsp (List.not_mem_nil _)
        rcases List.mem_append.1 hmem with hmem | hd
        swap
        · rw [DefinesChunks] at hd
          obtain ⟨t, -, htm⟩ := List.mem_filterMap.1 hd
          obtain ⟨e, he, hde⟩ := Option.map_eq_some'.1 htm
          obtain ⟨c, cs, hline, hident⟩ :=
            parseRegistry_getToken_lineOK (ReadMultiFiles s.registryFiles) _ e he
          rw [DefineLineChunk, hline, hFz] at hde
          obtain ⟨hc, -⟩ := List.cons.inj hde
          rw [hc] at hident
          exact absurd hident (by decide)
        rcases List.mem_append.1 hmem with hnil | hb
        · exact absurd hnil (List.not_mem_nil _)
        · rcases List.mem_cons.1 hb with h | hb
          · exact hbase h
          · exact absurd hb (List.not_mem_nil _)
      · rfl
    · intro hbp
      rw [GenerateChunks, GenerateChunksTail]
      simp [hbp]

/-- Witness for C10: at concrete settings, with boilerplate enabled the output
ends in the closing `#endif` line and the final chunk is emitted, and with
boilerplate disabled the output is exactly the truncated chunk sequence. -/
theorem claimC10_witness :
    (EndifLine <:+ GenerateOutput ⟨[], [], [], [], true, false, 0, []⟩)
    ∧ (FinalChunk [] ∈ GenerateChunks ⟨[], [], [], [], true, false, 0, []⟩)
    ∧ (GenerateOutput ⟨[], [], [], [], false, false, 0, []⟩
        = HeaderChunk 0
          ++ (BaselineChunk
          ++ ((DefinesChunks (ParseRegistry (ReadMultiFiles [])).1
                (SortTokensDesc (TableToList (ScanInputs
                  (ParseRegistry (ReadMultiFiles [])).1 [] []).definesHash))
                (ScanInputs
                  (ParseRegistry (ReadMultiFiles [])).1 [] []).definesCount).flatten
          ++ (SpacerChunk
          ++ (DebugProcChunk
          ++ (FunctionTypedefChunks (ParseRegistry (ReadMultiFiles [])).1
                (SortTokensDesc (TableToList (ScanInputs
                  (ParseRegistry (ReadMultiFiles [])).1 [] []).functionsHash))
                (ScanInputs
                  (ParseRegistry (ReadMultiFiles [])).1 [] []).functionCount).flatten))))) :=
  ⟨(claimC10_theorem ⟨[], [], [], [], true, false, 0, []⟩).2.1 rfl,
   (claimC10_theorem ⟨[], [], [], [], true, false, 0, []⟩).2.2.2.2 rfl,
   (claimC10_theorem ⟨[], [], [], [], false, false, 0, []⟩).2.2.1 rfl⟩

/-! ### Persistence and population bounds for the result sets (for claim C7)

Scanning only ever writes empty slots (`AddToken` probes for a zero-hash
slot), so a populated slot of either result set survives any amount of
further scanning unchanged, and the number of populated slots never exceeds
the running count the scanner maintains. -/

theorem scanTokenStep_eq (arb : GLArbTable) (ignores : List (List Char))
    (st : ScanState) (t : GLToken) (atStart : List Char) :
    scanTokenStep arb ignores st t atStart
      = scanDefineStep arb ignores (scanFunctionStep arb ignores st t atStart) t := rfl

theorem addToken_slot_preserve (tbl : GLTokenTable) (t : GLToken)
    (i : Fin TOKEN_HASH_SIZE) (h : (tbl i).hash ≠ 0) :
    (AddToken tbl t).1 i = tbl i := by
  rw [AddToken]
  cases hf : FindFreeSlotLoop (fun j => decide ((tbl j).hash ≠ 0))
      (t.hash &&& (TOKEN_HASH_SIZE - 1)) TOKEN_HASH_SIZE with
  | none => rfl
  | some j =>
    have hj : (tbl j).hash = 0 := by
      have := findFreeSlotLoop_free _ _ _ _ hf
      simpa using this
    show Function.update tbl j t i = tbl i
    rw [Function.update_apply, if_neg (fun he : i = j => h (by rw [he]; exact hj))]

theorem countP_map_update_le {ι α : Type} [DecidableEq ι] (p : α → Bool)
    (f : ι → α) (j : ι) (t : α) :
    ∀ (l : List ι), l.Nodup →
      ((l.map (Function.update f j t)).countP p) ≤ (l.map f).countP p + 1 := by
  intro l
  induction l with
  | nil => intro _; simp
  | cons x xs ih =>
    intro hnd
    rw [List.nodup_cons] at hnd
    simp only [List.map_cons, List.countP_cons]
    by_cases hx : x = j
    · subst hx
      have hmap : xs.map (Function.update f x t) = xs.map f := by
        refine List.map_congr_left ?_
        intro a ha
        exact Function.update_noteq (fun he : a = x => hnd.1 (by rw [← he]; exact ha)) t f
      rw [hmap]
      have h1 : (if p (Function.update f x t x) = true then 1 else 0) ≤ 1 := by
        by_cases hc : p (Function.update f x t x) = true
        · rw [if_pos hc]
        · rw [if_neg hc]
          omega
      omega
    · rw [Function.update_noteq hx]
      have := ih hnd.2
      omega

theorem addToken_countP_le (tbl : GLTokenTable) (t : GLToken) (p : GLToken → Bool) :
    (TableToList (AddToken tbl t).1).countP p ≤ (TableToList tbl).countP p + 1 := by
  rw [AddToken]
  cases hf : FindFreeSlotLoop (fun j => decide ((tbl j).hash ≠ 0))
      (t.hash &&& (TOKEN_HASH_SIZE - 1)) TOKEN_HASH_SIZE with
  | none => exact Nat.le_succ _
  | some j =>
    show (TableToList (Function.update tbl j t)).countP p ≤ _
    exact countP_map_update_le p tbl j t _ (List.nodup_finRange _)

theorem scanFunctionStep_definesHash (arb : GLArbTable) (ig : List (List Char))
    (st : ScanState) (t : GLToken) (a : List Char) :
    (scanFunctionStep arb ig st t a).definesHash = st.definesHash := by
  rw [scanFunctionStep]
  split_ifs <;> rfl

theorem scanFunctionStep_definesCount (arb : GLArbTable) (ig : List (List Char))
    (st : ScanState) (t : GLToken) (a : List Char) :
    (scanFunctionStep arb ig st t a).definesCount = st.definesCount := by
  rw [scanFunctionStep]
  split_ifs <;> rfl

theorem scanDefineStep_functionsHash (arb : GLArbTable) (ig : List (List Char))
    (st : ScanState) (t : GLToken) :
    (scanDefineStep arb ig st t).functionsHash = st.functionsHash := by
  rw [scanDefineStep]
  split_ifs <;> rfl

theorem scanDefineStep_functionCount (arb : GLArbTable) (ig : List (List Char))
    (st : ScanState) (t : GLToken) :
    (scanDefineStep arb ig st t).functionCount = st.functionCount := by
  rw [scanDefineStep]
  split_ifs <;> rfl

theorem scanFunctionStep_functions_slot (arb : GLArbTable) (ig : List (List Char))
    (st : ScanState) (t : GLToken) (a : List Char) (i : Fin TOKEN_HASH_SIZE)
    (h : (st.functionsHash i).hash ≠ 0) :
    (scanFunctionStep arb ig st t a).functionsHash i = st.functionsHash i := by
  rw [scanFunctionStep]
  split_ifs <;> first | rfl | exact addToken_slot_preserve _ _ _ h

theorem scanDefineStep_defines_slot (arb : GLArbTable) (ig : List (List Char))
    (st : ScanState) (t : GLToken) (i : Fin TOKEN_HASH_SIZE)
    (h : (st.definesHash i).hash ≠ 0) :
    (scanDefineStep arb ig st t).definesHash i = st.definesHash i := by
  rw [scanDefineStep]
  split_ifs <;> first | rfl | exact addToken_slot_preserve _ _ _ h

theorem scanFunctionStep_functions_inv (arb : GLArbTable) (ig : List (List Char))
    (st : ScanState) (t : GLToken) (a : List Char)
    (h : (TableToList st.functionsHash).countP (fun u => u.hash != 0)
      ≤ st.functionCount) :
    (TableToList (scanFunctionStep arb ig st t a).functionsHash).countP
        (fun u => u.hash != 0)
      ≤ (scanFunctionStep arb ig st t a).functionCount := by
  rw [scanFunctionStep]
  split_ifs
  · exact le_trans (addToken_countP_le _ _ _) (Nat.add_le_add_right h 1)
  · exact h
  · exact h
  · exact h

theorem scanDefineStep_defines_inv (arb : GLArbTable) (ig : List (List Char))
    (st : ScanState) (t : GLToken)
    (h : (TableToList st.definesHash).countP (fun u => u.hash != 0)
      ≤ st.definesCount) :
    (TableToList (scanDefineStep arb ig st t).definesHash).countP
        (fun u => u.hash != 0)
      ≤ (scanDefineStep arb ig st t).definesCount := by
  rw [scanDefineStep]
  split_ifs
  · exact le_trans (addToken_countP_le _ _ _) (Nat.add_le_add_right h 1)
  · exact h
  · exact h
  · exact h

theorem scanTokenStep_defines_slot (arb : GLArbTable) (ig : List (List Char))
    (st : ScanState) (t : GLToken) (a : List Char) (i : Fin TOKEN_HASH_SIZE)
    (h : (st.definesHash i).hash ≠ 0) :
    (scanTokenStep arb ig st t a).definesHash i = st.definesHash i := by
  rw [scanTokenStep_eq]
  have h1 := scanFunctionStep_definesHash arb ig st t a
  rw [scanDefineStep_defines_slot _ _ _ _ i (by rw [h1]; exact h), h1]

theorem scanTokenStep_functions_slot (arb : GLArbTable) (ig : List (List Char))
    (st : ScanState) (t : GLToken) (a : List Char) (i : Fin TOKEN_HASH_SIZE)
    (h : (st.functionsHash i).hash ≠ 0) :
    (scanTokenStep arb ig st t a).functionsHash i = st.functionsHash i := by
  rw [scanTokenStep_eq, scanDefineStep_functionsHash]
  exact scanFunctionStep_functions_slot arb ig st t a i h

theorem scanTokenStep_defines_inv (arb : GLArbTable) (ig : List (List Char))
    (st : ScanState) (t : GLToken) (a : List Char)
    (h : (TableToList st.definesHash).countP (fun u => u.hash != 0)
      ≤ st.definesCount) :
    (TableToList (scanTokenStep arb ig st t a).definesHash).countP
        (fun u => u.hash != 0)
      ≤ (scanTokenStep arb ig st t a).definesCount := by
  rw [scanTokenStep_eq]
  refine scanDefineStep_defines_inv arb ig _ t ?_
  rw [scanFunctionStep_definesHash, scanFunctionStep_definesCount]
  exact h

theorem scanTokenStep_functions_inv (arb : GLArbTable) (ig : List (List Char))
    (st : ScanState) (t : GLToken) (a : List Char)
    (h : (TableToList st.functionsHash).countP (fun u => u.hash != 0)
      ≤ st.functionCount) :
    (TableToList (scanTokenStep arb ig st t a).functionsHash).countP
        (fun u => u.hash != 0)
      ≤ (scanTokenStep arb ig st t a).functionCount := by
  rw [scanTokenStep_eq, scanDefineStep_functionsHash, scanDefineStep_functionCount]
  exact scanFunctionStep_functions_inv arb ig st t a h

theorem parseFileLoop_defines_slot (arb : GLArbTable) (ig : List (List Char)) :
    ∀ (fuel : Nat) (buf : List Char) (st : ScanState) (i : Fin TOKEN_HASH_SIZE),
      (st.definesHash i).hash ≠ 0 →
      (ParseFileLoop arb ig fuel buf st).definesHash i = st.definesHash i := by
  intro fuel
  induction fuel with
  | zero => intro buf st i h; rfl
  | succ fuel ih =>
    intro buf st i h
    cases buf with
    | nil => rfl
    | cons c cs =>
      have hunfold : ParseFileLoop arb ig (fuel + 1) (c :: cs) st
          = ParseFileLoop arb ig fuel (ParseToken (c :: cs)).2
              (scanTokenStep arb ig st (ParseToken (c :: cs)).1
                ((ParseToken (c :: cs)).1.value ++ (ParseToken (c :: cs)).2)) := rfl
      have hstep := scanTokenStep_defines_slot arb ig st (ParseToken (c :: cs)).1
        ((ParseToken (c :: cs)).1.value ++ (ParseToken (c :: cs)).2) i h
      rw [hunfold]
      rw [ih _ _ i (by rw [hstep]; exact h), hstep]

theorem parseFileLoop_functions_slot (arb : GLArbTable) (ig : List (List Char)) :
    ∀ (fuel : Nat) (buf : List Char) (st : ScanState) (i : Fin TOKEN_HASH_SIZE),
      (st.functionsHash i).hash ≠ 0 →
      (ParseFileLoop arb ig fuel buf st).functionsHash i = st.functionsHash i := by
  intro fuel
  induction fuel with
  | zero => intro buf st i h; rfl
  | succ fuel ih =>
    intro buf st i h
    cases buf with
    | nil => rfl
    | cons c cs =>
      have hunfold : ParseFileLoop arb ig (fuel + 1) (c :: cs) st
          = ParseFileLoop arb ig fuel (ParseToken (c :: cs)).2
              (scanTokenStep arb ig st (ParseToken (c :: cs)).1
                ((ParseToken (c :: cs)).1.value ++ (ParseToken (c :: cs)).2)) := rfl
      have hstep := scanTokenStep_functions_slot arb ig st (ParseToken (c :: cs)).1
        ((ParseToken (c :: cs)).1.value ++ (ParseToken (c :: cs)).2) i h
      rw [hunfold]
      rw [ih _ _ i (by rw [hstep]; exact h), hstep]

theorem parseFileLoop_defines_inv (arb : GLArbTable) (ig : List (List Char)) :
    ∀ (fuel : Nat) (buf : List Char) (st : ScanState),
      (TableToList st.definesHash).countP (fun u => u.hash != 0) ≤ st.definesCount →
      (TableToList (ParseFileLoop arb ig fuel buf st).definesHash).countP
          (fun u => u.hash != 0)
        ≤ (ParseFileLoop arb ig fuel buf st).definesCount := by
  intro fuel
  induction fuel with
  | zero => intro buf st h; exact h
  | succ fuel ih =>
    intro buf st h
    cases buf with
    | nil => exact h
    | cons c cs =>
      have hunfold : ParseFileLoop arb ig (fuel + 1) (c :: cs) st
          = ParseFileLoop arb ig fuel (ParseToken (c :: cs)).2
              (scanTokenStep arb ig st (ParseToken (c :: cs)).1
                ((ParseToken (c :: cs)).1.value ++ (ParseToken (c :: cs)).2)) := rfl
      rw [hunfold]
      exact ih _ _ (scanTokenStep_defines_inv arb ig st _ _ h)

theorem parseFileLoop_functions_inv (arb : GLArbTable) (ig : List (List Char)) :
    ∀ (fuel : Nat) (buf : List Char) (st : ScanState),
      (TableToList st.functionsHash).countP (fun u => u.hash != 0) ≤ st.functionCount →
      (TableToList (ParseFileLoop arb ig fuel buf st).functionsHash).countP
          (fun u => u.hash != 0)
        ≤ (ParseFileLoop arb ig fuel buf st).functionCount := by
  intro fuel
  induction fuel with
  | zero => intro buf st h; exact h
  | succ fuel ih =>
    intro buf st h
    cases buf with
    | nil => exact h
    | cons c cs =>
      have hunfold : ParseFileLoop arb ig (fuel + 1) (c :: cs) st
          = ParseFileLoop arb ig fuel (ParseToken (c :: cs)).2
              (scanTokenStep arb ig st (ParseToken (c :: cs)).1
                ((ParseToken (c :: cs)).1.value ++ (ParseToken (c :: cs)).2)) := rfl
      rw [hunfold]
      exact ih _ _ (scanTokenStep_functions_inv arb ig st _ _ h)

theorem parseFile_defines_slot (arb : GLArbTable) (ig : List (List Char))
    (content : List Char) (st : ScanState) (i : Fin TOKEN_HASH_SIZE)
    (h : (st.definesHash i).hash ≠ 0) :
    (ParseFile arb ig content st).definesHash i = st.definesHash i := by
  rw [ParseFile]
  by_cases hc : content.isEmpty
  · rw [if_pos hc]
  · rw [if_neg hc]
    exact parseFileLoop_defines_slot arb ig _ _ st i h

theorem parseFile_functions_slot (arb : GLArbTable) (ig : List (List Char))
    (content : List Char) (st : ScanState) (i : Fin TOKEN_HASH_SIZE)
    (h : (st.functionsHash i).hash ≠ 0) :
    (ParseFile arb ig content st).functionsHash i = st.functionsHash i := by
  rw [ParseFile]
  by_cases hc : content.isEmpty
  · rw [if_pos hc]
  · rw [if_neg hc]
    exact parseFileLoop_functions_slot arb ig _ _ st i h

theorem parseFile_defines_inv (arb : GLArbTable) (ig : List (List Char))
    (content : List Char) (st : ScanState)
    (h : (TableToList st.definesHash).countP (fun u => u.hash != 0)
      ≤ st.definesCount) :
    (TableToList (ParseFile arb ig content st).definesHash).countP
        (fun u => u.hash != 0)
      ≤ (ParseFile arb ig content st).definesCount := by
  rw [ParseFile]
  by_cases hc : content.isEmpty
  · rw [if_pos hc]; exact h
  · rw [if_neg hc]
    exact parseFileLoop_defines_inv arb ig _ _ st h

theorem parseFile_functions_inv (arb : GLArbTable) (ig : List (List Char))
    (content : List Char) (st : ScanState)
    (h : (TableToList st.functionsHash).countP (fun u => u.hash != 0)
      ≤ st.functionCount) :
    (TableToList (ParseFile arb ig content st).functionsHash).countP
        (fun u => u.hash != 0)
      ≤ (ParseFile arb ig content st).functionCount := by
  rw [ParseFile]
  by_cases hc : content.isEmpty
  · rw [if_pos hc]; exact h
  · rw [if_neg hc]
    exact parseFileLoop_functions_inv arb ig _ _ st h

theorem foldl_parseFile_defines_slot (arb : GLArbTable) (ig : List (List Char)) :
    ∀ (inputs : List (List Char)) (st : ScanState) (i : Fin TOKEN_HASH_SIZE),
      (st.definesHash i).hash ≠ 0 →
      ((inputs.foldl (fun st content => ParseFile arb ig content st) st).definesHash) i
        = st.definesHash i := by
  intro inputs
  induction inputs with
  | nil => intro st i h; rfl
  | cons c cs ih =>
    intro st i h
    rw [List.foldl_cons]
    have hstep := parseFile_defines_slot arb ig c st i h
    rw [ih _ i (by rw [hstep]; exact h), hstep]

theorem foldl_parseFile_functions_slot (arb : GLArbTable) (ig : List (List Char)) :
    ∀ (inputs : List (List Char)) (st : ScanState) (i : Fin TOKEN_HASH_SIZE),
      (st.functionsHash i).hash ≠ 0 →
      ((inputs.foldl (fun st content => ParseFile arb ig content st) st).functionsHash) i
        = st.functionsHash i := by
  intro inputs
  induction inputs with
  | nil => intro st i h; rfl
  | cons c cs ih =>
    intro st i h
    rw [List.foldl_cons]
    have hstep := parseFile_functions_slot arb ig c st i h
    rw [ih _ i (by rw [hstep]; exact h), hstep]

theorem foldl_parseFile_defines_inv (arb : GLArbTable) (ig : List (List Char)) :
    ∀ (inputs : List (List Char)) (st : ScanState),
      (TableToList st.definesHash).countP (fun u => u.hash != 0) ≤ st.definesCount →
      (TableToList ((inputs.foldl (fun st content => ParseFile arb ig content st)
          st).definesHash)).countP (fun u => u.hash != 0)
        ≤ (inputs.foldl (fun st content => ParseFile arb ig content st)
            st).definesCount := by
  intro inputs
  induction inputs with
  | nil => intro st h; exact h
  | cons c cs ih =>
    intro st h
    rw [List.foldl_cons]
    exact ih _ (parseFile_defines_inv arb ig c st h)

theorem foldl_parseFile_functions_inv (arb : GLArbTable) (ig : List (List Char)) :
    ∀ (inputs : List (List Char)) (st : ScanState),
      (TableToList st.functionsHash).countP (fun u => u.hash != 0) ≤ st.functionCount →
      (TableToList ((inputs.foldl (fun st content => ParseFile arb ig content st)
          st).functionsHash)).countP (fun u => u.hash != 0)
        ≤ (inputs.foldl (fun st content => ParseFile arb ig content st)
            st).functionCount := by
  intro inputs
  induction inputs with
  | nil => intro st h; exact h
  | cons c cs ih =>
    intro st h
    rw [List.foldl_cons]
    exact ih _ (parseFile_functions_inv arb ig c st h)

theorem scanInputs_defines_slot (arb : GLArbTable) (ig : List (List Char))
    (inputs : List (List Char)) (i : Fin TOKEN_HASH_SIZE)
    (h : (InitialScanState.definesHash i).hash ≠ 0) :
    (ScanInputs arb ig inputs).definesHash i = InitialScanState.definesHash i :=
  foldl_parseFile_defines_slot arb ig inputs InitialScanState i h

theorem scanInputs_functions_slot (arb : GLArbTable) (ig : List (List Char))
    (inputs : List (List Char)) (i : Fin TOKEN_HASH_SIZE)
    (h : (InitialScanState.functionsHash i).hash ≠ 0) :
    (ScanInputs arb ig inputs).functionsHash i = InitialScanState.functionsHash i :=
  foldl_parseFile_functions_slot arb ig inputs InitialScanState i h

theorem countP_tableToList_empty :
    (TableToList emptyGLTokenTable).countP (fun u => u.hash != 0) = 0 := by
  rw [tableToList_empty]
  refine List.countP_eq_zero.2 ?_
  intro a ha
  rw [List.eq_of_mem_replicate ha]
  decide

theorem initial_defines_inv :
    (TableToList InitialScanState.definesHash).countP (fun u => u.hash != 0)
      ≤ InitialScanState.definesCount := by
  have h0 := countP_tableToList_empty
  have h1 : (TableToList (AddCustomToken emptyGLTokenTable
        "GL_MAJOR_VERSION".data)).countP (fun u => u.hash != 0)
      ≤ (TableToList emptyGLTokenTable).countP (fun u => u.hash != 0) + 1 :=
    addToken_countP_le _ _ _
  have h2 : (TableToList (AddCustomToken (AddCustomToken emptyGLTokenTable
        "GL_MAJOR_VERSION".data) "GL_MINOR_VERSION".data)).countP
        (fun u => u.hash != 0)
      ≤ (TableToList (AddCustomToken emptyGLTokenTable
          "GL_MAJOR_VERSION".data)).countP (fun u => u.hash != 0) + 1 :=
    addToken_countP_le _ _ _
  show (TableToList (AddCustomToken (AddCustomToken emptyGLTokenTable
      "GL_MAJOR_VERSION".data) "GL_MINOR_VERSION".data)).countP
      (fun u => u.hash != 0) ≤ 2
  omega

theorem initial_functions_inv :
    (TableToList InitialScanState.functionsHash).countP (fun u => u.hash != 0)
      ≤ InitialScanState.functionCount := by
  have h0 := countP_tableToList_empty
  have h1 : (TableToList (AddCustomToken emptyGLTokenTable
        "glGetIntegerv".data)).countP (fun u => u.hash != 0)
      ≤ (TableToList emptyGLTokenTable).countP (fun u => u.hash != 0) + 1 :=
    addToken_countP_le _ _ _
  show (TableToList (AddCustomToken emptyGLTokenTable
      "glGetIntegerv".data)).countP (fun u => u.hash != 0) ≤ 1
  omega

theorem scanInputs_defines_inv (arb : GLArbTable) (ig : List (List Char))
    (inputs : List (List Char)) :
    (TableToList (ScanInputs arb ig inputs).definesHash).countP
        (fun u => u.hash != 0)
      ≤ (ScanInputs arb ig inputs).definesCount :=
  foldl_parseFile_defines_inv arb ig inputs InitialScanState initial_defines_inv

theorem scanInputs_functions_inv (arb : GLArbTable) (ig : List (List Char))
    (inputs : List (List Char)) :
    (TableToList (ScanInputs arb ig inputs).functionsHash).countP
        (fun u => u.hash != 0)
      ≤ (ScanInputs arb ig inputs).functionCount :=
  foldl_parseFile_functions_inv arb ig inputs InitialScanState initial_functions_inv

theorem dropWhile_head_false {α : Type} (p : α → Bool) :
    ∀ (l : List α) (b : α) (bs : List α), l.dropWhile p = b :: bs → p b = false := by
  intro l
  induction l with
  | nil => intro b bs h; exact absurd h (by simp)
  | cons x xs ih =>
    intro b bs h
    rw [List.dropWhile_cons] at h
    by_cases hx : p x = true
    · rw [if_pos hx] at h
      exact ih b bs h
    · rw [if_neg hx] at h
      obtain ⟨rfl, -⟩ := List.cons.inj h
      cases hpx : p x with
      | false => rfl
      | true => exact absurd hpx hx

theorem mem_take_of_sorted_nz (l : List GLToken)
    (hs : l.Pairwise (fun a b => b.hash ≤ a.hash))
    (t : GLToken) (ht : t ∈ l) (hnz : t.hash ≠ 0) (count : Nat)
    (hc : l.countP (fun u => u.hash != 0) ≤ count) :
    t ∈ l.take count := by
  set p : GLToken → Bool := fun u => u.hash != 0 with hp
  have hAB : l.takeWhile p ++ l.dropWhile p = l :=
    List.takeWhile_append_dropWhile p l
  have hdrop0 : ∀ x ∈ l.dropWhile p, x.hash = 0 := by
    have hsD : (l.dropWhile p).Pairwise (fun a b => b.hash ≤ a.hash) :=
      hs.sublist (List.dropWhile_sublist _)
    cases hD : l.dropWhile p with
    | nil => intro x hx; exact absurd hx (List.not_mem_nil _)
    | cons b bs =>
      intro x hx
      rw [hD] at hsD
      have hb0 : b.hash = 0 := by
        have hbp := dropWhile_head_false p l b bs hD
        rw [hp] at hbp
        simpa using hbp
      rcases List.mem_cons.1 hx with rfl | hx'
      · exact hb0
      · have := (List.pairwise_cons.1 hsD).1 x hx'
        omega
  have hcount : l.countP p = (l.takeWhile p).length := by
    conv_lhs => rw [← hAB]
    rw [List.countP_append]
    have hA : (l.takeWhile p).countP p = (l.takeWhile p).length :=
      List.countP_eq_length.2 (fun a ha => List.mem_takeWhile_imp ha)
    have hB : (l.dropWhile p).countP p = 0 :=
      List.countP_eq_zero.2 (fun a ha => by
        have h0 := hdrop0 a ha
        rw [hp]
        simp [h0])
    omega
  have htA : t ∈ l.takeWhile p := by
    have ht' : t ∈ l.takeWhile p ++ l.dropWhile p := by rw [hAB]; exact ht
    rcases List.mem_append.1 ht' with h | h
    · exact h
    · exact absurd (hdrop0 t h) hnz
  have hlen : (l.takeWhile p).length ≤ count := by
    rw [← hcount]
    exact hc
  have hAtake : l.takeWhile p = l.take (l.takeWhile p).length :=
    List.prefix_iff_eq_take.1 (List.takeWhile_prefix _)
  have htT : t ∈ l.take (l.takeWhile p).length := by rw [← hAtake]; exact htA
  have h2 : l.take (l.takeWhile p).length
      = (l.take count).take (l.takeWhile p).length := by
    rw [List.take_take, Nat.min_eq_left hlen]
  rw [h2] at htT
  exact List.take_subset _ _ htT

theorem mem_sorted_take_filterMap (arb : GLArbTable) (f : GLArbToken → List Char)
    (tbl : GLTokenTable) (count : Nat) (i : Fin TOKEN_HASH_SIZE) (e : GLArbToken)
    (hinv : (TableToList tbl).countP (fun u => u.hash != 0) ≤ count)
    (hnz : (tbl i).hash ≠ 0)
    (hget : GetToken arb (tbl i).hash = some e) :
    f e ∈ ((SortTokensDesc (TableToList tbl)).take count).filterMap
        (fun t => (GetToken arb t.hash).map f) := by
  have hmem : tbl i ∈ TableToList tbl := List.mem_map.2 ⟨i, List.mem_finRange i, rfl⟩
  have hmemS : tbl i ∈ SortTokensDesc (TableToList tbl) :=
    (sortTokensDesc_perm _).mem_iff.2 hmem
  have hcountS : (SortTokensDesc (TableToList tbl)).countP (fun u => u.hash != 0)
      = (TableToList tbl).countP (fun u => u.hash != 0) :=
    (sortTokensDesc_perm _).countP_eq _
  have htake : tbl i ∈ (SortTokensDesc (TableToList tbl)).take count :=
    mem_take_of_sorted_nz _ (sortTokensDesc_sorted _) _ hmemS hnz count
      (by rw [hcountS]; exact hinv)
  exact List.mem_filterMap.2 ⟨tbl i, htake, by rw [hget]; rfl⟩

theorem mem_generateChunks_of_defines (s : GLSettings) (c : List Char)
    (hc : c ∈ DefinesChunks (ParseRegistry (ReadMultiFiles s.registryFiles)).1
        (SortTokensDesc (TableToList (ScanInputs
          (ParseRegistry (ReadMultiFiles s.registryFiles)).1
          s.ignores s.inputFiles).definesHash))
        (ScanInputs (ParseRegistry (ReadMultiFiles s.registryFiles)).1
          s.ignores s.inputFiles).definesCount) :
    c ∈ GenerateChunks s := by
  rw [GenerateChunks]
  refine List.mem_cons_of_mem _ ?_
  exact List.mem_append_left _ (List.mem_append_left _ (List.mem_append_left _
    (List.mem_append_right _ hc)))

theorem mem_generateChunks_of_typedefs (s : GLSettings) (c : List Char)
    (hc : c ∈ FunctionTypedefChunks (ParseRegistry (ReadMultiFiles s.registryFiles)).1
        (SortTokensDesc (TableToList (ScanInputs
          (ParseRegistry (ReadMultiFiles s.registryFiles)).1
          s.ignores s.inputFiles).functionsHash))
        (ScanInputs (ParseRegistry (ReadMultiFiles s.registryFiles)).1
          s.ignores s.inputFiles).functionCount) :
    c ∈ GenerateChunks s := by
  rw [GenerateChunks]
  refine List.mem_cons_of_mem _ ?_
  exact List.mem_append_left _ (List.mem_append_right _ hc)

theorem chunk_infix_output (s : GLSettings) (c : List Char)
    (hc : c ∈ GenerateChunks s) : c <:+: GenerateOutput s := by
  rw [GenerateOutput]
  exact List.infix_of_mem_flatten hc

/-- C7 (amended): `GL_MAJOR_VERSION`, `GL_MINOR_VERSION` and `glGetIntegerv`
are seeded into the result sets unconditionally before any input file is
scanned; and whenever the registry dictionary resolves their hashes, the
corresponding `#define` lines and function-pointer typedef appear in the
generated output for every choice of input files and ignore list — in
particular when no input file references them.  (When the registry lacks
them, their emission is skipped; see the counterexample.) -/
theorem claimC7_theorem (s : GLSettings)
    (h1 : (GetToken (ParseRegistry (ReadMultiFiles s.registryFiles)).1
        (GetStringHash "GL_MAJOR_VERSION".data)).isSome = true)
    (h2 : (GetToken (ParseRegistry (ReadMultiFiles s.registryFiles)).1
        (GetStringHash "GL_MINOR_VERSION".data)).isSome = true)
    (h3 : (GetToken (ParseRegistry (ReadMultiFiles s.registryFiles)).1
        (GetStringHash "glGetIntegerv".data)).isSome = true) :
    (Contains InitialScanState.definesHash
        { value := "GL_MAJOR_VERSION".data,
          hash := GetStringHash "GL_MAJOR_VERSION".data } = true
      ∧ Contains InitialScanState.definesHash
        { value := "GL_MINOR_VERSION".data,
          hash := GetStringHash "GL_MINOR_VERSION".data } = true
      ∧ Contains InitialScanState.functionsHash
        { value := "glGetIntegerv".data,
          hash := GetStringHash "glGetIntegerv".data } = true)
    ∧ (DefineLineChunk ((GetToken (ParseRegistry (ReadMultiFiles s.registryFiles)).1
          (GetStringHash "GL_MAJOR_VERSION".data)).get h1) ∈ GenerateChunks s
      ∧ DefineLineChunk ((GetToken (ParseRegistry (ReadMultiFiles s.registryFiles)).1
          (GetStringHash "GL_MAJOR_VERSION".data)).get h1) <:+: GenerateOutput s)
    ∧ (DefineLineChunk ((GetToken (ParseRegistry (ReadMultiFiles s.registryFiles)).1
          (GetStringHash "GL_MINOR_VERSION".data)).get h2) ∈ GenerateChunks s
      ∧ DefineLineChunk ((GetToken (ParseRegistry (ReadMultiFiles s.registryFiles)).1
          (GetStringHash "GL_MINOR_VERSION".data)).get h2) <:+: GenerateOutput s)
    ∧ (TypedefChunk ((GetToken (ParseRegistry (ReadMultiFiles s.registryFiles)).1
          (GetStringHash "glGetIntegerv".data)).get h3) ∈ GenerateChunks s
      ∧ TypedefChunk ((GetToken (ParseRegistry (ReadMultiFiles s.registryFiles)).1
          (GetStringHash "glGetIntegerv".data)).get h3) <:+: GenerateOutput s) := by
  refine ⟨⟨by decide, by decide, by decide⟩, ?_, ?_, ?_⟩
  · have hg : GetToken (ParseRegistry (ReadMultiFiles s.registryFiles)).1
        (GetStringHash "GL_MAJOR_VERSION".data)
        = some ((GetToken (ParseRegistry (ReadMultiFiles s.registryFiles)).1
            (GetStringHash "GL_MAJOR_VERSION".data)).get h1) :=
      (Option.some_get h1).symm
    have hini : (InitialScanState.definesHash ⟨123, by decide⟩).hash
        = GetStringHash "GL_MAJOR_VERSION".data := by decide
    have hnz0 : (InitialScanState.definesHash ⟨123, by decide⟩).hash ≠ 0 := by decide
    have hpres := scanInputs_defines_slot
      (ParseRegistry (ReadMultiFiles s.registryFiles)).1 s.ignores s.inputFiles
      ⟨123, by decide⟩ hnz0
    have hmem := mem_sorted_take_filterMap
      (ParseRegistry (ReadMultiFiles s.registryFiles)).1 DefineLineChunk
      (ScanInputs (ParseRegistry (ReadMultiFiles s.registryFiles)).1
        s.ignores s.inputFiles).definesHash
      (ScanInputs (ParseRegistry (ReadMultiFiles s.registryFiles)).1
        s.ignores s.inputFiles).definesCount
      ⟨123, by decide⟩ _
      (scanInputs_defines_inv _ s.ignores s.inputFiles)
      (by rw [hpres]; exact hnz0)
      (by rw [hpres, hini]; exact hg)
    have hchunks := mem_generateChunks_of_defines s _ hmem
    exact ⟨hchunks, chunk_infix_output s _ hchunks⟩
  · have hg : GetToken (ParseRegistry (ReadMultiFiles s.registryFiles)).1
        (GetStringHash "GL_MINOR_VERSION".data)
        = some ((GetToken (ParseRegistry (ReadMultiFiles s.registryFiles)).1
            (GetStringHash "GL_MINOR_VERSION".data)).get h2) :=
      (Option.some_get h2).symm
    have hini : (InitialScanState.definesHash ⟨743, by decide⟩).hash
        = GetStringHash "GL_MINOR_VERSION".data := by decide
    have hnz0 : (InitialScanState.definesHash ⟨743, by decide⟩).hash ≠ 0 := by decide
    have hpres := scanInputs_defines_slot
      (ParseRegistry (ReadMultiFiles s.registryFiles)).1 s.ignores s.inputFiles
      ⟨743, by decide⟩ hnz0
    have hmem := mem_sorted_take_filterMap
      (ParseRegistry (ReadMultiFiles s.registryFiles)).1 DefineLineChunk
      (ScanInputs (ParseRegistry (ReadMultiFiles s.registryFiles)).1
        s.ignores s.inputFiles).definesHash
      (ScanInputs (ParseRegistry (ReadMultiFiles s.registryFiles)).1
        s.ignores s.inputFiles).definesCount
      ⟨743, by decide⟩ _
      (scanInputs_defines_inv _ s.ignores s.inputFiles)
      (by rw [hpres]; exact hnz0)
      (by rw [hpres, hini]; exact hg)
    have hchunks := mem_generateChunks_of_defines s _ hmem
    exact ⟨hchunks, chunk_infix_output s _ hchunks⟩
  · have hg : GetToken (ParseRegistry (ReadMultiFiles s.registryFiles)).1
        (GetStringHash "glGetIntegerv".data)
        = some ((GetToken (ParseRegistry (ReadMultiFiles s.registryFiles)).1
            (GetStringHash "glGetIntegerv".data)).get h3) :=
      (Option.some_get h3).symm
    have hini : (InitialScanState.functionsHash ⟨4496, by decide⟩).hash
        = GetStringHash "glGetIntegerv".data := by decide
    have hnz0 : (InitialScanState.functionsHash ⟨4496, by decide⟩).hash ≠ 0 := by decide
    have hpres := scanInputs_functions_slot
      (ParseRegistry (ReadMultiFiles s.registryFiles)).1 s.ignores s.inputFiles
      ⟨4496, by decide⟩ hnz0
    have hmem := mem_sorted_take_filterMap
      (ParseRegistry (ReadMultiFiles s.registryFiles)).1 TypedefChunk
      (ScanInputs (ParseRegistry (ReadMultiFiles s.registryFiles)).1
        s.ignores s.inputFiles).functionsHash
      (ScanInputs (ParseRegistry (ReadMultiFiles s.registryFiles)).1
        s.ignores s.inputFiles).functionCount
      ⟨4496, by decide⟩ _
      (scanInputs_functions_inv _ s.ignores s.inputFiles)
      (by rw [hpres]; exact hnz0)
      (by rw [hpres, hini]; exact hg)
    have hchunks := mem_generateChunks_of_typedefs s _ hmem
    exact ⟨hchunks, chunk_infix_output s _ hchunks⟩

/-- Witness for C7: a concrete registry declaring all three seeded symbols;
the hypotheses are discharged by evaluation and all three chunks are emitted. -/
theorem claimC7_witness :
    DefineLineChunk ((GetToken (ParseRegistry (ReadMultiFiles
        [("GLAPI void APIENTRY glGetIntegerv (GLenum pname, GLint *data);\n#define GL_MAJOR_VERSION 0x821B\n#define GL_MINOR_VERSION 0x821C\n").data])).1
        (GetStringHash "GL_MAJOR_VERSION".data)).get (by decide))
      ∈ GenerateChunks
        ⟨[("GLAPI void APIENTRY glGetIntegerv (GLenum pname, GLint *data);\n#define GL_MAJOR_VERSION 0x821B\n#define GL_MINOR_VERSION 0x821C\n").data],
          [], [], [], true, false, 0, []⟩
    ∧ DefineLineChunk ((GetToken (ParseRegistry (ReadMultiFiles
        [("GLAPI void APIENTRY glGetIntegerv (GLenum pname, GLint *data);\n#define GL_MAJOR_VERSION 0x821B\n#define GL_MINOR_VERSION 0x821C\n").data])).1
        (GetStringHash "GL_MINOR_VERSION".data)).get (by decide))
      ∈ GenerateChunks
        ⟨[("GLAPI void APIENTRY glGetIntegerv (GLenum pname, GLint *data);\n#define GL_MAJOR_VERSION 0x821B\n#define GL_MINOR_VERSION 0x821C\n").data],
          [], [], [], true, false, 0, []⟩
    ∧ TypedefChunk ((GetToken (ParseRegistry (ReadMultiFiles
        [("GLAPI void APIENTRY glGetIntegerv (GLenum pname, GLint *data);\n#define GL_MAJOR_VERSION 0x821B\n#define GL_MINOR_VERSION 0x821C\n").data])).1
        (GetStringHash "glGetIntegerv".data)).get (by decide))
      ∈ GenerateChunks
        ⟨[("GLAPI void APIENTRY glGetIntegerv (GLenum pname, GLint *data);\n#define GL_MAJOR_VERSION 0x821B\n#define GL_MINOR_VERSION 0x821C\n").data],
          [], [], [], true, false, 0, []⟩ := by
  have h := claimC7_theorem
    ⟨[("GLAPI void APIENTRY glGetIntegerv (GLenum pname, GLint *data);\n#define GL_MAJOR_VERSION 0x821B\n#define GL_MINOR_VERSION 0x821C\n").data],
      [], [], [], true, false, 0, []⟩
    (by decide) (by decide) (by decide)
  exact ⟨h.2.1.1, h.2.2.1.1, h.2.2.2.1⟩

theorem infix_append_split {α : Type} (p A B : List α) (h : p <:+: A ++ B) :
    p <:+: A ++ B.take p.length ∨ p <:+: B := by
  obtain ⟨sp, tl, heq⟩ := h
  rcases List.append_eq_append_iff.1 heq with ⟨a', hA, hB⟩ | ⟨c', hsp, hd⟩
  · refine Or.inl ?_
    have hinfA : p <:+: A := ⟨sp, a', hA.symm⟩
    exact hinfA.trans (List.prefix_append _ _).isInfix
  · have hc'pre : c' <+: B := ⟨tl, hd.symm⟩
    have hpsuf : p <:+ A ++ c' := ⟨sp, hsp⟩
    have hc'suf : c' <:+ A ++ c' := List.suffix_append A c'
    rcases List.suffix_or_suffix_of_suffix hpsuf hc'suf with hps | hcs
    · exact Or.inr (hps.isInfix.trans hc'pre.isInfix)
    · have hlen : c'.length ≤ p.length := hcs.length_le
      have hc'take : c' <+: B.take p.length := by
        have he : c' = B.take c'.length := List.prefix_iff_eq_take.1 hc'pre
        have ht : (B.take p.length).take c'.length = B.take c'.length := by
          rw [List.take_take, Nat.min_eq_left hlen]
        rw [he, ← ht]
        exact List.take_prefix _ _
      obtain ⟨u, hu⟩ := hc'take
      refine Or.inl (hpsuf.isInfix.trans ?_)
      have hpref : A ++ c' <+: A ++ B.take p.length :=
        ⟨u, by rw [List.append_assoc, hu]⟩
      exact List.IsPrefix.isInfix hpref

theorem baselineChunk_split : BaselineChunk
    = ("#ifndef APIENTRY\n#define APIENTRY\n#endif\n#ifndef APIENTRYP\n#define APIENTRYP APIENTRY *\n#endif\n#ifndef GLAPI\n#define GLAPI extern\n#endif\n\ntypedef void GLvoid;\ntypedef unsigned int GLenum;\ntypedef float GLfloat;\ntypedef int GLint;\ntypedef int GLsizei;\ntypedef unsigned int GLbitfield;\ntypedef double GLdouble;\n").data
      ++ ("typedef unsigned int GLuint;\ntypedef unsigned char GLboolean;\ntypedef unsigned char GLubyte;\ntypedef char GLchar;\ntypedef short GLshort;\ntypedef signed char GLbyte;\ntypedef unsigned short GLushort;\ntypedef ptrdiff_t GLsizeiptr;\ntypedef ptrdiff_t GLintptr;\ntypedef float GLclampf;\ntypedef double GLclampd;\ntypedef unsigned short GLhalf;\n\n").data := by
  decide

set_option maxRecDepth 10000 in
/-- Counterexample to C7's "always appear in the output": a run whose (real,
non-empty, successfully parsed) registry lacks the three seeded symbols.  The
output degenerates to the fixed header/baseline/spacer/debug chunks, and
neither `GL_MAJOR_VERSION`, `GL_MINOR_VERSION` nor `glGetIntegerv` occurs
anywhere in the emitted bytes — the seeded entries are silently skipped when
`GetToken` cannot resolve them in the registry dictionary. -/
theorem claimC7_counterexample :
    GenerateOutput ⟨["#define GL_ONE 1\n".data], [], [], [], false, false, 0, []⟩
      = HeaderChunk 0 ++ BaselineChunk ++ SpacerChunk ++ DebugProcChunk
    ∧ (ParseRegistry (ReadMultiFiles ["#define GL_ONE 1\n".data])).2 = 1
    ∧ ¬ ("GL_MAJOR_VERSION".data
        <:+: GenerateOutput ⟨["#define GL_ONE 1\n".data], [], [], [], false, false, 0, []⟩)
    ∧ ¬ ("GL_MINOR_VERSION".data
        <:+: GenerateOutput ⟨["#define GL_ONE 1\n".data], [], [], [], false, false, 0, []⟩)
    ∧ ¬ ("glGetIntegerv".data
        <:+: GenerateOutput ⟨["#define GL_ONE 1\n".data], [], [], [], false, false, 0, []⟩) := by
  have hdnone : ∀ i : Fin TOKEN_HASH_SIZE,
      GetToken (ParseRegistry (ReadMultiFiles ["#define GL_ONE 1\n".data])).1
        (InitialScanState.definesHash i).hash = none := by
    intro i
    have htbl : InitialScanState.definesHash
        = Function.update (Function.update emptyGLTokenTable
            ⟨123, by decide⟩
            { value := "GL_MAJOR_VERSION".data, hash := 1427071099 })
            ⟨743, by decide⟩
            { value := "GL_MINOR_VERSION".data, hash := 4211663591 } := rfl
    rw [htbl, Function.update_apply]
    by_cases h7 : i = ⟨743, by decide⟩
    · rw [if_pos h7]
      decide
    · rw [if_neg h7, Function.update_apply]
      by_cases h1 : i = ⟨123, by decide⟩
      · rw [if_pos h1]
        decide
      · rw [if_neg h1]
        show GetToken _ (0 : Nat) = none
        rw [GetToken, if_pos rfl]
  have hfnone : ∀ i : Fin TOKEN_HASH_SIZE,
      GetToken (ParseRegistry (ReadMultiFiles ["#define GL_ONE 1\n".data])).1
        (InitialScanState.functionsHash i).hash = none := by
    intro i
    have htbl : InitialScanState.functionsHash
        = Function.update emptyGLTokenTable ⟨4496, by decide⟩
            { value := "glGetIntegerv".data, hash := 4266307984 } := rfl
    rw [htbl, Function.update_apply]
    by_cases h4 : i = ⟨4496, by decide⟩
    · rw [if_pos h4]
      decide
    · rw [if_neg h4]
      show GetToken _ (0 : Nat) = none
      rw [GetToken, if_pos rfl]
  have hD : DefinesChunks (ParseRegistry (ReadMultiFiles ["#define GL_ONE 1\n".data])).1
      (SortTokensDesc (TableToList InitialScanState.definesHash))
      InitialScanState.definesCount = [] := by
    rw [DefinesChunks]
    refine List.filterMap_eq_nil_iff.2 ?_
    intro t ht
    have htl : t ∈ TableToList InitialScanState.definesHash :=
      (sortTokensDesc_perm _).mem_iff.1 (List.take_subset _ _ ht)
    obtain ⟨i, -, rfl⟩ := List.mem_map.1 htl
    rw [hdnone i]
    rfl
  have hT : FunctionTypedefChunks
      (ParseRegistry (ReadMultiFiles ["#define GL_ONE 1\n".data])).1
      (SortTokensDesc (TableToList InitialScanState.functionsHash))
      InitialScanState.functionCount = [] := by
    rw [FunctionTypedefChunks]
    refine List.filterMap_eq_nil_iff.2 ?_
    intro t ht
    have htl : t ∈ TableToList InitialScanState.functionsHash :=
      (sortTokensDesc_perm _).mem_iff.1 (List.take_subset _ _ ht)
    obtain ⟨i, -, rfl⟩ := List.mem_map.1 htl
    rw [hfnone i]
    rfl
  have hout : GenerateOutput ⟨["#define GL_ONE 1\n".data], [], [], [], false, false, 0, []⟩
      = HeaderChunk 0 ++ BaselineChunk ++ SpacerChunk ++ DebugProcChunk := by
    rw [GenerateOutput]
    show (HeaderChunk 0
        :: GenerateChunksTail ["#define GL_ONE 1\n".data] [] [] [] false).flatten = _
    have htail : GenerateChunksTail ["#define GL_ONE 1\n".data] [] [] [] false
        = [] ++ [BaselineChunk]
          ++ DefinesChunks (ParseRegistry (ReadMultiFiles ["#define GL_ONE 1\n".data])).1
              (SortTokensDesc (TableToList InitialScanState.definesHash))
              InitialScanState.definesCount
          ++ [SpacerChunk, DebugProcChunk]
          ++ FunctionTypedefChunks
              (ParseRegistry (ReadMultiFiles ["#define GL_ONE 1\n".data])).1
              (SortTokensDesc (TableToList InitialScanState.functionsHash))
              InitialScanState.functionCount
          ++ [] := rfl
    rw [List.flatten_cons, htail, hD, hT]
    simp only [List.nil_append, List.append_nil, List.cons_append,
      List.flatten_cons, List.flatten_nil, List.append_assoc]
  refine ⟨hout, by decide, ?_, ?_, ?_⟩
  · intro hinf
    rw [hout, baselineChunk_split] at hinf
    simp only [List.append_assoc] at hinf
    rcases infix_append_split _ _ _ hinf with h | h
    · exact absurd h (by decide)
    rcases infix_append_split _ _ _ h with h | h
    · exact absurd h (by decide)
    rcases infix_append_split _ _ _ h with h | h
    · exact absurd h (by decide)
    · exact absurd h (by decide)
  · intro hinf
    rw [hout, baselineChunk_split] at hinf
    simp only [List.append_assoc] at hinf
    rcases infix_append_split _ _ _ hinf with h | h
    · exact absurd h (by decide)
    rcases infix_append_split _ _ _ h with h | h
    · exact absurd h (by decide)
    rcases infix_append_split _ _ _ h with h | h
    · exact absurd h (by decide)
    · exact absurd h (by decide)
  · intro hinf
    rw [hout, baselineChunk_split] at hinf
    simp only [List.append_assoc] at hinf
    rcases infix_append_split _ _ _ hinf with h | h
    · exact absurd h (by decide)
    rcases infix_append_split _ _ _ h with h | h
    · exact absurd h (by decide)
    rcases infix_append_split _ _ _ h with h | h
    · exact absurd h (by decide)
    · exact absurd h (by decide)
